import Mathlib

/-!
# Geospatial query service: the polygon predicate and the request handlers

A shallow embedding of `src/Backend/server.cpp`.

* A finite `double` is the rational it denotes.  The polygon predicate is
  embedded in `double` arithmetic (IEEE 754 binary64, round to nearest even,
  with infinities and not-a-number): `isPointInPolygonDouble`.  It is also
  embedded in exact rational arithmetic, `isPointInPolygon`, for the
  properties in which the arithmetic plays no part (the parity of the
  crossings, the index ranges, the control flow of the handlers) and as the
  reference the `double` results are compared with.
* The constants `numeric_limits<double>::max()` and
  `numeric_limits<double>::lowest()` are the rationals they denote.
* `size_t` values are naturals reduced modulo `2 ^ 64`.
* `std::vector<Point>` is `List Point`; `polygon[i]` is a checked access whose
  failure is the fault `outOfBounds`, so that "the access is in range" is a
  statement about the model and not an assumption of it.
* A C++ exception caught by a handler's `catch (const std::exception&)` is the
  `Except.error` branch of an `Except Exn _` computation.
-/

namespace Geo

/-! ## Geometry (declarations of `RTrees.cpp` used by `server.cpp`) -/

/-- Modelled from the spec: `Point` of `RTrees.cpp` (not among the sources),
two coordinates `(x, y)`; `server.cpp` reads the fields `x` and `y` and calls
the constructor `Point(double, double)`. -/
structure Point where
  x : ℚ
  y : ℚ
  deriving DecidableEq, Repr

/-- Modelled from the spec: `Rectangle` of `RTrees.cpp` (not among the
sources), two corner points with `min.x ≤ max.x` and `min.y ≤ max.y`. -/
structure Rectangle where
  min : Point
  max : Point
  deriving DecidableEq, Repr

/-- Modelled from the spec: the constructor `Rectangle(Point, Point)` of
`RTrees.cpp`, "normalized on construction so that `min.x ≤ max.x` and
`min.y ≤ max.y` regardless of input order". -/
def Rectangle.ofCorners (a b : Point) : Rectangle :=
  { min := ⟨Min.min a.x b.x, Min.min a.y b.y⟩
    max := ⟨Max.max a.x b.x, Max.max a.y b.y⟩ }

/-- Modelled from the spec: `Rectangle::contains(point)` of `RTrees.cpp`,
"inclusive of boundary, i.e. `min ≤ coordinate ≤ max` on both axes". -/
def Rectangle.contains (r : Rectangle) (p : Point) : Bool :=
  decide (r.min.x ≤ p.x) && decide (p.x ≤ r.max.x) &&
    decide (r.min.y ≤ p.y) && decide (p.y ≤ r.max.y)

/-- `latLngToPoint` (server.cpp:14-16). -/
def latLngToPoint (lat lng : ℚ) : Point := ⟨lat, lng⟩

/-! ## The polygon predicate (server.cpp:167-180) -/

/-- What the embedding treats as undefined behaviour of the C++ code. -/
inductive Fault where
  | outOfBounds
  | divByZero
  deriving DecidableEq, Repr

/-- The modulus of `size_t` arithmetic. -/
def SIZE_MOD : Nat := 2 ^ 64

/-- `polygon[i]` on a `std::vector<Point>`: defined only for `i < size()`. -/
def vecAt (polygon : List Point) (i : Nat) : Except Fault Point :=
  match polygon[i]? with
  | some p => .ok p
  | none => .error .outOfBounds

/-- Division `a / b` of the source, with a zero divisor reported. -/
def checkedDiv (a b : ℚ) : Except Fault ℚ :=
  if b = 0 then .error .divByZero else .ok (a / b)

/-- The condition of the `if` at server.cpp:172-174 for the edge from
`vj = polygon[j]` to `vi = polygon[i]`, in exact rational arithmetic.  `&&` is
short-circuit: the division is evaluated only when the first conjunct is
true. -/
def edgeCrossed (point vi vj : Point) : Except Fault Bool :=
  if (decide (vi.y > point.y) != decide (vj.y > point.y)) then do
    let q ← checkedDiv ((vj.x - vi.x) * (point.y - vi.y)) (vj.y - vi.y)
    pure (decide (point.x < q + vi.x))
  else
    pure false

/-- One iteration of the loop at server.cpp:171-178; the state is
`(inside, j)`. -/
def loopBody (point : Point) (polygon : List Point) (st : Bool × Nat) (i : Nat) :
    Except Fault (Bool × Nat) := do
  let vi ← vecAt polygon i
  let vj ← vecAt polygon st.2
  let c ← edgeCrossed point vi vj
  pure (if c then !st.1 else st.1, i)

/-- `isPointInPolygon` (server.cpp:167-180) in exact rational arithmetic, with
every vector access and every division checked.  `j` starts at
`polygon.size() - 1` in `size_t`. -/
def isPointInPolygonChecked (point : Point) (polygon : List Point) : Except Fault Bool := do
  let st ← (List.range polygon.length).foldlM (loopBody point polygon)
    (false, (polygon.length + SIZE_MOD - 1) % SIZE_MOD)
  pure st.1

/-- `isPointInPolygon` in exact rational arithmetic as a Boolean function:
the value of the checked run. -/
def isPointInPolygon (point : Point) (polygon : List Point) : Bool :=
  match isPointInPolygonChecked point polygon with
  | .ok b => b
  | .error _ => false

/-! ## JSON values (the part of `json.hpp` the handlers use) -/

/-- Modelled from the spec: `nlohmann::json` of `json.hpp` (not among the
sources), the decoded request and encoded response bodies of §6.  Numbers are
rationals; an object is its member list. -/
inductive Json where
  | null
  | bool (b : Bool)
  | num (q : ℚ)
  | str (s : String)
  | arr (items : List Json)
  | obj (members : List (String × Json))

/-- The exceptions (all derived from `std::exception`) a handler's `try`
block can see: a `json.hpp` type error, or the index's empty-index error. -/
inductive Exn where
  | typeError (id : Nat)
  | emptyIndex
  deriving DecidableEq, Repr

/-- How a `try` block can stop early: an exception, or undefined behaviour. -/
inductive Abort where
  | thrown (e : Exn)
  | undefined (f : Fault)
  deriving DecidableEq, Repr

/-- Modelled from the spec: `x[key]` on a non-const `json` (`json.hpp`, not
among the sources).  A null value or an object without the key yields null
(the library inserts the null member into the handler's local copy, which no
later lookup of another key observes); any other non-object throws
`type_error` 305.  A missing field therefore surfaces at the conversion that
follows, as §6 and §7 require of missing fields. -/
def Json.atKey (x : Json) (key : String) : Except Exn Json :=
  match x with
  | .null => .ok .null
  | .obj members => .ok ((members.lookup key).getD .null)
  | _ => .error (.typeError 305)

/-- Modelled from the spec: the implicit conversion `double v = j`
(`json.hpp`, not among the sources): a number converts, anything else throws
`type_error` 302 (§6: "non-numeric fields" are a 400). -/
def Json.toDouble (j : Json) : Except Exn ℚ :=
  match j with
  | .num q => .ok q
  | _ => .error (.typeError 302)

/-- Modelled from the spec: `j[idx]` on a `const json&` (`json.hpp`, not among
the sources): an unchecked `std::vector` access on an array, `type_error` 305
on anything else. -/
def Json.atIdx (j : Json) (idx : Nat) : Except Abort Json :=
  match j with
  | .arr items =>
    match items[idx]? with
    | some v => .ok v
    | none => .error (.undefined .outOfBounds)
  | _ => .error (.thrown (.typeError 305))

/-- Modelled from the spec: the values a range-`for` over a `json` visits
(`json.hpp`, not among the sources): the items of an array, the member values
of an object, nothing for null, and the value itself for any other scalar. -/
def Json.elements (j : Json) : List Json :=
  match j with
  | .null => []
  | .arr items => items
  | .obj members => members.map Prod.snd
  | v => [v]

/-- `pointToLatLng` (server.cpp:18-23). -/
def pointToLatLng (point : Point) : Json :=
  .obj [("lat", .num point.x), ("lng", .num point.y)]

/-! ## The shared index (`RTrees.cpp`) -/

/-- Modelled from the spec: the three operations of `RTree` (`RTrees.cpp`, not
among the sources) that the handlers call, over any representation `σ` of the
index.  Insertion and range search are total (§4.3, §4.4, §7);
`nearest_neighbor` returns a `Point` by value and can only report its
empty-index error (§4.5) as an exception. -/
structure IndexOps (σ : Type) where
  insert : σ → Point → σ
  search : σ → Rectangle → List Point
  nearest_neighbor : σ → Point → Except Exn Point

/-- Modelled from the spec: the index of `RTrees.cpp` (not among the sources)
seen from outside, the points inserted so far; "duplicate points are permitted
and stored independently". -/
structure RTree where
  stored : List Point
  deriving DecidableEq, Repr

/-- Modelled from the spec: the default-constructed `RTree` (`RTrees.cpp`, not
among the sources), "a freshly created index with zero insertions". -/
def RTree.empty : RTree := ⟨[]⟩

/-- Modelled from the spec: `RTree::insert` (`RTrees.cpp`, not among the
sources), a total operation that stores the point. -/
def RTree.insert (t : RTree) (p : Point) : RTree := ⟨t.stored ++ [p]⟩

/-- Modelled from the spec: `RTree::search` (`RTrees.cpp`, not among the
sources), "returns all stored points contained in `query_rectangle`". -/
def RTree.search (t : RTree) (r : Rectangle) : List Point :=
  t.stored.filter r.contains

/-- Squared Euclidean distance. -/
def distSq (p q : Point) : ℚ := (p.x - q.x) ^ 2 + (p.y - q.y) ^ 2

/-- Modelled from the spec: `RTree::nearest_neighbor` (`RTrees.cpp`, not among
the sources): "returns the single stored point minimizing Euclidean distance";
"fails only if the index is empty (no prior insertion) — this is a defined
empty-index error". -/
def RTree.nearest_neighbor (t : RTree) (q : Point) : Except Exn Point :=
  match t.stored with
  | [] => .error .emptyIndex
  | p :: ps => .ok (ps.foldl (fun best c => if distSq c q < distSq best q then c else best) p)

/-- Modelled from the spec: the operations of `RTrees.cpp` as the spec
describes them. -/
def RTree.ops : IndexOps RTree :=
  { insert := RTree.insert, search := RTree.search, nearest_neighbor := RTree.nearest_neighbor }

/-! ## The request handlers (server.cpp:45-160) -/

/-- A response body: a literal text, or the serialisation `j.dump()`. -/
inductive Body where
  | text (s : String)
  | dump (j : Json)

/-- The part of `crow::response` the handlers set. -/
structure Response where
  status : Nat
  body : Body

/-- A call into the shared index. -/
inductive IndexCall where
  | insert (p : Point)
  | nearest_neighbor (q : Point)
  | search (r : Rectangle)
  deriving DecidableEq, Repr

/-- What a handler run leaves behind: the response, the index afterwards, and
the calls made into the index, in order. -/
structure Handled (σ : Type) where
  response : Response
  rtree : σ
  calls : List IndexCall

/-- The two statements `double lat = x["lat"]; double lng = x["lng"];`
(server.cpp:51-52 and 70-71). -/
def latLngFields (x : Json) : Except Exn (ℚ × ℚ) := do
  let lat ← (← x.atKey "lat").toDouble
  let lng ← (← x.atKey "lng").toDouble
  pure (lat, lng)

/-- The handler of `POST /api/point` (server.cpp:45-61).  `parse body` is
`json::parse(req.body, nullptr, false)`, `none` standing for a discarded
value. -/
def pointHandler {σ : Type} (parse : String → Option Json) (ops : IndexOps σ) (rtree : σ)
    (body : String) : Handled σ :=
  match parse body with
  | none => ⟨⟨400, .text "Invalid JSON"⟩, rtree, []⟩
  | some x =>
    match latLngFields x with
    | .ok (lat, lng) =>
      ⟨⟨200, .text ""⟩, ops.insert rtree (latLngToPoint lat lng), [.insert (latLngToPoint lat lng)]⟩
    | .error _ => ⟨⟨400, .text "Invalid point data"⟩, rtree, []⟩

/-- The handler of `POST /api/nearest_neighbor` (server.cpp:64-83). -/
def nearestNeighborHandler {σ : Type} (parse : String → Option Json) (ops : IndexOps σ)
    (rtree : σ) (body : String) : Handled σ :=
  match parse body with
  | none => ⟨⟨400, .text "Invalid JSON"⟩, rtree, []⟩
  | some x =>
    match latLngFields x with
    | .error _ => ⟨⟨400, .text "Invalid query point"⟩, rtree, []⟩
    | .ok (lat, lng) =>
      let query := latLngToPoint lat lng
      match ops.nearest_neighbor rtree query with
      | .ok nearest => ⟨⟨200, .dump (pointToLatLng nearest)⟩, rtree, [.nearest_neighbor query]⟩
      | .error _ => ⟨⟨400, .text "Invalid query point"⟩, rtree, [.nearest_neighbor query]⟩

/-- The four field reads of server.cpp:92-95. -/
def rectFields (x : Json) : Except Exn Rectangle := do
  let min_lat ← (← x.atKey "min_lat").toDouble
  let min_lng ← (← x.atKey "min_lng").toDouble
  let max_lat ← (← x.atKey "max_lat").toDouble
  let max_lng ← (← x.atKey "max_lng").toDouble
  pure (Rectangle.ofCorners (latLngToPoint min_lat min_lng) (latLngToPoint max_lat max_lng))

/-- The handler of `POST /api/range_query` (server.cpp:86-113). -/
def rangeQueryHandler {σ : Type} (parse : String → Option Json) (ops : IndexOps σ)
    (rtree : σ) (body : String) : Handled σ :=
  match parse body with
  | none => ⟨⟨400, .text "Invalid JSON"⟩, rtree, []⟩
  | some x =>
    match rectFields x with
    | .error _ => ⟨⟨400, .text "Invalid rectangle coordinates"⟩, rtree, []⟩
    | .ok query_rect =>
      ⟨⟨200, .dump (.arr ((ops.search rtree query_rect).map pointToLatLng))⟩, rtree,
        [.search query_rect]⟩

/-- The body of the loop at server.cpp:123-127 for one element of
`x["points"]`. -/
def parseVertex (point : Json) : Except Abort Point := do
  let lat ← match (← point.atIdx 0).toDouble with
    | .ok v => pure v
    | .error e => throw (.thrown e)
  let lng ← match (← point.atIdx 1).toDouble with
    | .ok v => pure v
    | .error e => throw (.thrown e)
  pure (latLngToPoint lat lng)

/-- The loop at server.cpp:123-127 over the values it visits: each vertex is
appended to `polygon_points`; the first element that throws or faults ends
the loop. -/
def parseVertices : List Json → Except Abort (List Point)
  | [] => pure []
  | point :: rest => do
    let v ← parseVertex point
    let vs ← parseVertices rest
    pure (v :: vs)

/-- The statements at server.cpp:122-127: `polygon_points`. -/
def polygonPoints (x : Json) : Except Abort (List Point) :=
  match x.atKey "points" with
  | .error e => .error (.thrown e)
  | .ok pts => parseVertices pts.elements

/-- `std::numeric_limits<double>::max()`. -/
def DBL_MAX : ℚ := 2 ^ 1024 - 2 ^ 971

/-- `std::numeric_limits<double>::lowest()`. -/
def DBL_LOWEST : ℚ := -DBL_MAX

/-- The four locals `min_lat, min_lng, max_lat, max_lng` of server.cpp:130-133. -/
structure BBox where
  min_lat : ℚ
  min_lng : ℚ
  max_lat : ℚ
  max_lng : ℚ
  deriving DecidableEq, Repr

/-- The body of the bounding-box loop (server.cpp:136-139). -/
def bboxStep (b : BBox) (point : Point) : BBox :=
  { min_lat := Min.min b.min_lat point.x
    min_lng := Min.min b.min_lng point.y
    max_lat := Max.max b.max_lat point.x
    max_lng := Max.max b.max_lng point.y }

/-- The bounding-box computation (server.cpp:130-140). -/
def boundingBox (polygon_points : List Point) : BBox :=
  polygon_points.foldl bboxStep
    { min_lat := DBL_MAX, min_lng := DBL_MAX, max_lat := DBL_LOWEST, max_lng := DBL_LOWEST }

/-- The rectangle built at server.cpp:142: `query_rect`. -/
def queryRect (polygon_points : List Point) : Rectangle :=
  Rectangle.ofCorners
    ⟨(boundingBox polygon_points).min_lat, (boundingBox polygon_points).min_lng⟩
    ⟨(boundingBox polygon_points).max_lat, (boundingBox polygon_points).max_lng⟩

/-- The filter loop at server.cpp:150-155: the points of `results` for which
`isPointInPolygon` is true, in order. -/
def filterInside (polygon_points : List Point) : List Point → Except Fault (List Point)
  | [] => pure []
  | point :: rest => do
    let keep ← isPointInPolygonChecked point polygon_points
    let tail ← filterInside polygon_points rest
    pure (if keep then point :: tail else tail)

/-- The handler of `POST /api/intersection` (server.cpp:116-160), with the
predicate in exact rational arithmetic.  The result is `Except.error` when
the run has undefined behaviour. -/
def intersectionHandler {σ : Type} (parse : String → Option Json) (ops : IndexOps σ)
    (rtree : σ) (body : String) : Except Fault (Handled σ) :=
  match parse body with
  | none => .ok ⟨⟨400, .text "Invalid JSON"⟩, rtree, []⟩
  | some x =>
    match polygonPoints x with
    | .error (.thrown _) => .ok ⟨⟨400, .text "Invalid polygon coordinates"⟩, rtree, []⟩
    | .error (.undefined f) => .error f
    | .ok polygon_points =>
      let query_rect := queryRect polygon_points
      let results := ops.search rtree query_rect
      match filterInside polygon_points results with
      | .error f => .error f
      | .ok intersecting =>
        .ok ⟨⟨200, .dump (.arr (intersecting.map pointToLatLng))⟩, rtree, [.search query_rect]⟩

/-! ## Auxiliary definitions used to state and prove the properties -/

/-- The value of the condition at server.cpp:172-174 as a Boolean, with the
field division of `ℚ` in place of the checked one. -/
def crossedB (point vi vj : Point) : Bool :=
  (decide (vi.y > point.y) != decide (vj.y > point.y)) &&
    decide (point.x < (vj.x - vi.x) * (point.y - vi.y) / (vj.y - vi.y) + vi.x)

/-- The parity of the crossed edges along a path: `prev` is the start of the
first edge, the vertices of the list are the successive edge ends. -/
def walk (point : Point) : Point → List Point → Bool
  | _, [] => false
  | prev, v :: vs => xor (crossedB point v prev) (walk point v vs)

/-- The edge `(V[i-1], V[i])`, with `V[-1] = V[n-1]`, is counted as crossed by
the condition of the source. -/
def edgeCountedAt (point : Point) (polygon : List Point) (i : Nat) : Bool :=
  match polygon[i]?, polygon[(i + polygon.length - 1) % polygon.length]? with
  | some vi, some vj =>
    (match edgeCrossed point vi vj with
     | .ok c => c
     | .error _ => false)
  | _, _ => false

/-- The point `(x, y)` lies on the line through `a` and `b`. -/
def onLine (a b : Point) (x y : ℚ) : Prop :=
  (x - a.x) * (b.y - a.y) = (b.x - a.x) * (y - a.y)

instance (a b : Point) (x y : ℚ) : Decidable (onLine a b x y) := by
  unfold onLine; infer_instance

/-- The point `p` lies on the closed segment from `a` to `b`. -/
def onSegment (a b p : Point) : Prop :=
  onLine a b p.x p.y ∧ min a.x b.x ≤ p.x ∧ p.x ≤ max a.x b.x ∧
    min a.y b.y ≤ p.y ∧ p.y ≤ max a.y b.y

instance (a b p : Point) : Decidable (onSegment a b p) := by
  unfold onSegment; infer_instance

/-- The triangle `[(0,0),(0,10),(10,0)]` of the scenario in §8. -/
def triangleT : List Point := [⟨0, 0⟩, ⟨0, 10⟩, ⟨10, 0⟩]

/-- The point `p` lies on one of the three sides of `triangleT`. -/
def onBoundaryT (p : Point) : Prop :=
  onSegment ⟨0, 0⟩ ⟨0, 10⟩ p ∨ onSegment ⟨0, 10⟩ ⟨10, 0⟩ p ∨ onSegment ⟨10, 0⟩ ⟨0, 0⟩ p

instance (p : Point) : Decidable (onBoundaryT p) := by
  unfold onBoundaryT; infer_instance

/-- The request body `{"points": [[0,0],[0,10],[10,0]]}`, decoded. -/
def triangleRequest : Json :=
  .obj [("points", .arr [.arr [.num 0, .num 0], .arr [.num 0, .num 10], .arr [.num 10, .num 0]])]

/-- A rational in the range of the finite `double` values. -/
def inDoubleRange (q : ℚ) : Prop := DBL_LOWEST ≤ q ∧ q ≤ DBL_MAX

instance (q : ℚ) : Decidable (inDoubleRange q) := by
  unfold inDoubleRange; infer_instance

/-- The numeric value of the member `key` of a JSON object: `none` when the
value is not an object, the member is missing, or it is not a number. -/
def Json.numberField (x : Json) (key : String) : Option ℚ :=
  match x with
  | .obj members =>
    (match members.lookup key with
     | some (.num q) => some q
     | _ => none)
  | _ => none

/-- A polygon vertex as §6 writes it: an array that starts with two numbers. -/
def Json.isVertex (j : Json) : Bool :=
  match j with
  | .arr (.num _ :: .num _ :: _) => true
  | _ => false

/-- An element of `points` of the wrong type: not an array, or an array with
a non-number in one of its two leading places (the place being there). -/
def Json.isRejectedVertex (j : Json) : Bool :=
  match j with
  | .arr [] => false
  | .arr [.num _] => false
  | .arr (.num _ :: .num _ :: _) => false
  | _ => true

/-- The first element of a `points` array that is not a vertex is of the
wrong type. -/
def firstNonVertexRejected : List Json → Bool
  | [] => false
  | e :: rest => if e.isVertex then firstNonVertexRejected rest else e.isRejectedVertex

/-- A decoded `/api/intersection` body with a wrong-typed `points` field: the
body is neither an object nor null, or `points` is a Boolean, a number or a
string, or `points` is an array whose first element that is not a vertex is
of the wrong type. -/
def wrongTypedPoints (x : Json) : Bool :=
  match x with
  | .null => false
  | .obj members =>
    (match members.lookup "points" with
     | some (.bool _) => true
     | some (.num _) => true
     | some (.str _) => true
     | some (.arr items) => firstNonVertexRejected items
     | _ => false)
  | _ => true

/-! ## Double-precision arithmetic (IEEE 754 binary64, round to nearest even)

The source computes in `double`.  A finite double is the rational it
denotes; the result of an operation is the exact rational result rounded to
the nearest double, ties to the even significand, overflowing to an infinity.
The sign of a zero is not kept: it can only show in a division by zero, and
the one divisor of the source is the difference of two distinct doubles,
which is never zero. -/

/-- A value of type `double`: finite, an infinity (`negative` for `-inf`), or
not-a-number. -/
inductive Dbl where
  | finite (q : ℚ)
  | inf (negative : Bool)
  | nan
  deriving DecidableEq, Repr

/-- The integer nearest to `N / D`, a tie going to the even one. -/
def roundHalfEven (N D : Nat) : Nat :=
  if 2 * (N % D) < D then N / D
  else if D < 2 * (N % D) then N / D + 1
  else if (N / D) % 2 = 0 then N / D else N / D + 1

/-- `log2Fuel fuel n` is the position of the highest set bit of `n`, for
`n < 2 ^ fuel`. -/
def log2Fuel : Nat → Nat → Nat
  | 0, _ => 0
  | fuel + 1, n => if n < 2 then 0 else log2Fuel fuel (n / 2) + 1

/-- The position of the highest set bit: `⌊log₂ n⌋` for `n > 0`. -/
def floorLog2 (n : Nat) : Nat := log2Fuel n n

/-- The binary exponent of `a / d`: the `e` with `2 ^ e ≤ a / d < 2 ^ (e + 1)`,
for `a, d > 0`. -/
def ilog2 (a d : Nat) : Int :=
  if d * 2 ^ ((floorLog2 a : Int) - (floorLog2 d : Int)).toNat
      ≤ a * 2 ^ ((floorLog2 d : Int) - (floorLog2 a : Int)).toNat
  then (floorLog2 a : Int) - (floorLog2 d : Int)
  else (floorLog2 a : Int) - (floorLog2 d : Int) - 1

/-- The exponent of the unit in the last place of the doubles around `q`:
52 below the binary exponent of `q`, and `-1074` in the subnormal range. -/
def ulpExp (q : ℚ) : Int := max (ilog2 q.num.natAbs q.den) (-1022) - 52

/-- The integer significand of the double nearest to `|q|`, in units of
`2 ^ ulpExp q`. -/
def significand (q : ℚ) : Nat :=
  roundHalfEven (q.num.natAbs * 2 ^ (-(ulpExp q)).toNat) (q.den * 2 ^ (ulpExp q).toNat)

/-- The double nearest to the rational `q` (round to nearest, ties to even);
an infinity when the rounded magnitude reaches `2 ^ 1024`. -/
def roundDouble (q : ℚ) : Dbl :=
  if q = 0 then .finite 0
  else if 971 < ulpExp q ∨ (ulpExp q = 971 ∧ 2 ^ 53 ≤ significand q) then .inf (decide (q < 0))
  else .finite (mkRat ((if q < 0 then -1 else 1) * (significand q * 2 ^ (ulpExp q).toNat : Nat))
      (2 ^ (-(ulpExp q)).toNat))

/-- Unary minus on `double`. -/
def Dbl.neg : Dbl → Dbl
  | .finite a => .finite (-a)
  | .inf s => .inf (!s)
  | .nan => .nan

/-- `a + b` on `double`. -/
def Dbl.add : Dbl → Dbl → Dbl
  | .finite a, .finite b => roundDouble (a + b)
  | .finite _, .inf s => .inf s
  | .inf s, .finite _ => .inf s
  | .inf s, .inf t => if s = t then .inf s else .nan
  | _, _ => .nan

/-- `a - b` on `double`. -/
def Dbl.sub (a b : Dbl) : Dbl := Dbl.add a (Dbl.neg b)

/-- `a * b` on `double`. -/
def Dbl.mul : Dbl → Dbl → Dbl
  | .finite a, .finite b => roundDouble (a * b)
  | .finite a, .inf s => if a = 0 then .nan else .inf (xor (decide (a < 0)) s)
  | .inf s, .finite b => if b = 0 then .nan else .inf (xor s (decide (b < 0)))
  | .inf s, .inf t => .inf (xor s t)
  | _, _ => .nan

/-- `a / b` on `double`; a zero divisor is taken as `+0`. -/
def Dbl.div : Dbl → Dbl → Dbl
  | .finite a, .finite b =>
    if b = 0 then (if a = 0 then .nan else .inf (decide (a < 0))) else roundDouble (a / b)
  | .finite _, .inf _ => .finite 0
  | .inf s, .finite b => .inf (xor s (decide (b < 0)))
  | _, _ => .nan

/-- `a < b` on `double`: false when either side is not-a-number. -/
def Dbl.lt : Dbl → Dbl → Bool
  | .finite a, .finite b => decide (a < b)
  | .finite _, .inf s => !s
  | .inf s, .finite _ => s
  | .inf s, .inf t => s && !t
  | _, _ => false

/-! ## The polygon predicate in double precision (server.cpp:167-180) -/

/-- The right-hand side of the comparison at server.cpp:173-174,
`(polygon[j].x - polygon[i].x) * (point.y - polygon[i].y) /
(polygon[j].y - polygon[i].y) + polygon[i].x`, each operation in `double`. -/
def interpDouble (point vi vj : Point) : Dbl :=
  Dbl.add
    (Dbl.div
      (Dbl.mul (Dbl.sub (.finite vj.x) (.finite vi.x)) (Dbl.sub (.finite point.y) (.finite vi.y)))
      (Dbl.sub (.finite vj.y) (.finite vi.y)))
    (.finite vi.x)

/-- The condition of the `if` at server.cpp:172-174 in `double`, for the edge
from `vj = polygon[j]` to `vi = polygon[i]`. -/
def edgeCrossedDouble (point vi vj : Point) : Bool :=
  (decide (vi.y > point.y) != decide (vj.y > point.y)) &&
    Dbl.lt (.finite point.x) (interpDouble point vi vj)

/-- One iteration of the loop at server.cpp:171-178 in `double`; the state is
`(inside, j)`. -/
def loopBodyDouble (point : Point) (polygon : List Point) (st : Bool × Nat) (i : Nat) :
    Except Fault (Bool × Nat) := do
  let vi ← vecAt polygon i
  let vj ← vecAt polygon st.2
  pure (if edgeCrossedDouble point vi vj then !st.1 else st.1, i)

/-- `isPointInPolygon` (server.cpp:167-180) in `double`, with every vector
access checked. -/
def isPointInPolygonDoubleChecked (point : Point) (polygon : List Point) :
    Except Fault Bool := do
  let st ← (List.range polygon.length).foldlM (loopBodyDouble point polygon)
    (false, (polygon.length + SIZE_MOD - 1) % SIZE_MOD)
  pure st.1

/-- `isPointInPolygon` in `double` as a Boolean function. -/
def isPointInPolygonDouble (point : Point) (polygon : List Point) : Bool :=
  match isPointInPolygonDoubleChecked point polygon with
  | .ok b => b
  | .error _ => false

/-- The filter loop at server.cpp:150-155 with the predicate in `double`. -/
def filterInsideDouble (polygon_points : List Point) : List Point → Except Fault (List Point)
  | [] => pure []
  | point :: rest => do
    let keep ← isPointInPolygonDoubleChecked point polygon_points
    let tail ← filterInsideDouble polygon_points rest
    pure (if keep then point :: tail else tail)

/-- The handler of `POST /api/intersection` (server.cpp:116-160) with the
predicate in `double`. -/
def intersectionHandlerDouble {σ : Type} (parse : String → Option Json) (ops : IndexOps σ)
    (rtree : σ) (body : String) : Except Fault (Handled σ) :=
  match parse body with
  | none => .ok ⟨⟨400, .text "Invalid JSON"⟩, rtree, []⟩
  | some x =>
    match polygonPoints x with
    | .error (.thrown _) => .ok ⟨⟨400, .text "Invalid polygon coordinates"⟩, rtree, []⟩
    | .error (.undefined f) => .error f
    | .ok polygon_points =>
      let query_rect := queryRect polygon_points
      let results := ops.search rtree query_rect
      match filterInsideDouble polygon_points results with
      | .error f => .error f
      | .ok intersecting =>
        .ok ⟨⟨200, .dump (.arr (intersecting.map pointToLatLng))⟩, rtree, [.search query_rect]⟩

/-- None of the six `double` operations of `interpDouble` rounds: each exact
result is itself a double. -/
def exactOps (point vi vj : Point) : Prop :=
  roundDouble (vj.x - vi.x) = .finite (vj.x - vi.x) ∧
  roundDouble (point.y - vi.y) = .finite (point.y - vi.y) ∧
  roundDouble ((vj.x - vi.x) * (point.y - vi.y)) = .finite ((vj.x - vi.x) * (point.y - vi.y)) ∧
  roundDouble (vj.y - vi.y) = .finite (vj.y - vi.y) ∧
  roundDouble ((vj.x - vi.x) * (point.y - vi.y) / (vj.y - vi.y))
    = .finite ((vj.x - vi.x) * (point.y - vi.y) / (vj.y - vi.y)) ∧
  roundDouble ((vj.x - vi.x) * (point.y - vi.y) / (vj.y - vi.y) + vi.x)
    = .finite ((vj.x - vi.x) * (point.y - vi.y) / (vj.y - vi.y) + vi.x)

instance (point vi vj : Point) : Decidable (exactOps point vi vj) := by
  unfold exactOps; infer_instance

/-- The parity of the edges that a test `c` counts along a path: `prev` is
the start of the first edge, the vertices of the list the successive ends. -/
def walkWith (c : Point → Point → Bool) : Point → List Point → Bool
  | _, [] => false
  | prev, v :: vs => xor (c v prev) (walkWith c v vs)

/-- The double `6.1`. -/
def d6_1 : ℚ := 3433994715870003 / 562949953421312

/-- The double `3.9`. -/
def d3_9 : ℚ := 8782019273372467 / 2251799813685248

/-- The double `0.1`. -/
def d0_1 : ℚ := 3602879701896397 / 36028797018963968

/-- The double next above `0.1`, written `0.10000000000000002`. -/
def d0_1_next : ℚ := 7205759403792795 / 72057594037927936

/-- The double `2.22`. -/
def d2_22 : ℚ := 4998995586381251 / 2251799813685248

/-- The double `7.78`. -/
def d7_78 : ℚ := 8759501275235615 / 1125899906842624

/-- The polygon `[(0.1,0),(-1,1),(-1,0)]`. -/
def sliverV : List Point := [⟨d0_1, 0⟩, ⟨-1, 1⟩, ⟨-1, 0⟩]

/-- The request body `{"points": [[0.1,0],[-1,1],[-1,0]]}`, decoded. -/
def sliverRequest : Json :=
  .obj [("points", .arr [.arr [.num d0_1, .num 0], .arr [.num (-1), .num 1],
    .arr [.num (-1), .num 0]])]

end Geo

namespace Geo

/-! ## The polygon predicate: the loop -/

theorem vecAt_of_getElem? {polygon : List Point} {i : Nat} {v : Point}
    (h : polygon[i]? = some v) : vecAt polygon i = .ok v := by
  simp [vecAt, h]

theorem vecAt_of_lt (polygon : List Point) (i : Nat) (h : i < polygon.length) :
    vecAt polygon i = .ok (polygon.get ⟨i, h⟩) := by
  apply vecAt_of_getElem?
  simp [List.getElem?_eq_getElem h]

theorem edgeCrossed_eq (point vi vj : Point) :
    edgeCrossed point vi vj = .ok (crossedB point vi vj) := by
  unfold edgeCrossed crossedB
  by_cases h : (decide (vi.y > point.y) != decide (vj.y > point.y)) = true
  · have hne : vj.y - vi.y ≠ 0 := by
      intro h0
      have : vj.y = vi.y := by linarith
      rw [this] at h
      simp at h
    simp [h, checkedDiv, hne, bind, Except.bind, pure, Except.pure]
  · simp [h, pure, Except.pure]

theorem loopBody_ok (point : Point) (polygon : List Point) (b : Bool) (i j : Nat)
    (vi vj : Point) (hi : vecAt polygon i = .ok vi) (hj : vecAt polygon j = .ok vj) :
    loopBody point polygon (b, j) i = .ok (xor b (crossedB point vi vj), i) := by
  unfold loopBody
  simp only [hi, hj, edgeCrossed_eq, bind, Except.bind, pure, Except.pure]
  cases b <;> cases crossedB point vi vj <;> rfl

theorem fold_walk (point : Point) (polygon : List Point) :
    ∀ (suf pre : List Point) (b : Bool) (j : Nat) (prev : Point),
      polygon = pre ++ suf → vecAt polygon j = .ok prev →
      ∃ j', (List.range' pre.length suf.length).foldlM (loopBody point polygon) (b, j)
        = .ok (xor b (walk point prev suf), j') := by
  intro suf
  induction suf with
  | nil =>
    intro pre b j prev _ _
    exact ⟨j, by simp [walk, pure, Except.pure]⟩
  | cons v vs ih =>
    intro pre b j prev hV hj
    have hv : vecAt polygon pre.length = .ok v := by
      apply vecAt_of_getElem?
      rw [hV, List.getElem?_append_right (le_refl _)]
      simp
    have hstep := loopBody_ok point polygon b pre.length j v prev hv hj
    obtain ⟨j', hj'⟩ := ih (pre ++ [v]) (xor b (crossedB point v prev)) pre.length v
      (by simp [hV]) hv
    refine ⟨j', ?_⟩
    simp only [List.length_cons, List.range'_succ, List.foldlM_cons, hstep, bind, Except.bind]
    simp only [List.length_append, List.length_singleton] at hj'
    rw [hj']
    simp [walk, Bool.xor_assoc]

theorem checked_nil (point : Point) : isPointInPolygonChecked point [] = .ok false := by
  simp [isPointInPolygonChecked, bind, Except.bind, pure, Except.pure]

theorem checked_eq_walk (point : Point) (polygon : List Point) (prev : Point)
    (hprev : vecAt polygon ((polygon.length + SIZE_MOD - 1) % SIZE_MOD) = .ok prev) :
    isPointInPolygonChecked point polygon = .ok (walk point prev polygon) := by
  obtain ⟨j', hj'⟩ := fold_walk point polygon polygon [] false _ prev (by simp) hprev
  unfold isPointInPolygonChecked
  rw [List.range_eq_range']
  simp only [List.length_nil] at hj'
  rw [hj']
  simp [bind, Except.bind, pure, Except.pure]

theorem start_index_lt (n : Nat) (hn : 0 < n) : (n + SIZE_MOD - 1) % SIZE_MOD < n := by
  have h1 : n + SIZE_MOD - 1 = (n - 1) + SIZE_MOD := by
    have : 0 < SIZE_MOD := by decide
    omega
  rw [h1, Nat.add_mod_right]
  exact lt_of_le_of_lt (Nat.mod_le _ _) (by omega)

theorem start_index_eq (n : Nat) (hn : 0 < n) (hlt : n < SIZE_MOD) :
    (n + SIZE_MOD - 1) % SIZE_MOD = n - 1 := by
  have h1 : n + SIZE_MOD - 1 = (n - 1) + SIZE_MOD := by
    have : 0 < SIZE_MOD := by decide
    omega
  rw [h1, Nat.add_mod_right]
  exact Nat.mod_eq_of_lt (by omega)

theorem checked_ok (point : Point) (polygon : List Point) :
    ∃ b, isPointInPolygonChecked point polygon = .ok b := by
  cases hp : polygon with
  | nil => exact ⟨false, checked_nil point⟩
  | cons v vs =>
    have hlt := start_index_lt (v :: vs).length (by simp)
    exact ⟨_, checked_eq_walk point (v :: vs) _ (vecAt_of_lt _ _ hlt)⟩

theorem checked_eq (point : Point) (polygon : List Point) :
    isPointInPolygonChecked point polygon = .ok (isPointInPolygon point polygon) := by
  obtain ⟨b, hb⟩ := checked_ok point polygon
  simp [isPointInPolygon, hb]

theorem decide_odd_succ (c : Nat) : decide (Odd (c + 1)) = !decide (Odd c) := by
  by_cases h : Odd c <;> simp [h, Nat.odd_add_one]

theorem walk_count (point : Point) (polygon : List Point) :
    ∀ (suf pre : List Point) (prev : Point),
      polygon = pre ++ suf →
      polygon[(pre.length + polygon.length - 1) % polygon.length]? = some prev →
      walk point prev suf
        = decide (Odd ((List.range' pre.length suf.length).countP (edgeCountedAt point polygon))) := by
  intro suf
  induction suf with
  | nil => intro pre prev _ _; simp [walk]
  | cons v vs ih =>
    intro pre prev hV hprev
    have hlen : polygon.length = pre.length + (vs.length + 1) := by simp [hV]
    have hv : polygon[pre.length]? = some v := by
      rw [hV, List.getElem?_append_right (le_refl _)]
      simp
    have hnext : (pre.length + 1 + polygon.length - 1) % polygon.length = pre.length := by
      have : pre.length + 1 + polygon.length - 1 = pre.length + polygon.length := by omega
      rw [this, Nat.add_mod_right]
      exact Nat.mod_eq_of_lt (by omega)
    have hcount : edgeCountedAt point polygon pre.length = crossedB point v prev := by
      simp [edgeCountedAt, hv, hprev, edgeCrossed_eq]
    have ih' := ih (pre ++ [v]) v (by simp [hV]) (by
      simp only [List.length_append, List.length_singleton]
      rw [hnext]; exact hv)
    simp only [List.length_append, List.length_singleton] at ih'
    simp only [walk, List.length_cons, List.range'_succ, List.countP_cons, hcount, ih']
    cases crossedB point v prev
    · simp
    · simp only [if_true, decide_odd_succ]
      simp

theorem straddle_iff (a b c : ℚ) :
    (decide (a > c) != decide (b > c)) = true ↔ (min a b ≤ c ∧ c < max a b) := by
  rcases lt_or_le c a with h1 | h1 <;> rcases lt_or_le c b with h2 | h2 <;>
    simp [h1, h2, not_lt.mpr, not_le.mpr, h1.le, h2.le]

theorem crossedB_iff (point vi vj : Point) :
    crossedB point vi vj = true ↔
      ((min vi.y vj.y ≤ point.y ∧ point.y < max vi.y vj.y) ∧
        ∃ x, onLine vi vj x point.y ∧ point.x < x) := by
  unfold crossedB
  rw [Bool.and_eq_true, straddle_iff, decide_eq_true_iff]
  constructor
  · rintro ⟨hs, hx⟩
    have hne : vj.y - vi.y ≠ 0 := by
      intro h0
      have : vj.y = vi.y := by linarith
      rw [this, min_self, max_self] at hs
      exact absurd hs.2 (not_lt.mpr hs.1)
    refine ⟨hs, _, ?_, hx⟩
    unfold onLine
    field_simp
    ring
  · rintro ⟨hs, x, hline, hx⟩
    have hne : vj.y - vi.y ≠ 0 := by
      intro h0
      have : vj.y = vi.y := by linarith
      rw [this, min_self, max_self] at hs
      exact absurd hs.2 (not_lt.mpr hs.1)
    refine ⟨hs, ?_⟩
    unfold onLine at hline
    have hxeq : x = (vj.x - vi.x) * (point.y - vi.y) / (vj.y - vi.y) + vi.x := by
      field_simp
      linarith
    rw [← hxeq]
    exact hx

theorem inside_triangleT_iff (p : Point) :
    isPointInPolygon p triangleT = true ↔ (0 ≤ p.x ∧ 0 ≤ p.y ∧ p.x + p.y < 10) := by
  have hw : isPointInPolygonChecked p triangleT = .ok (walk p ⟨10, 0⟩ triangleT) :=
    checked_eq_walk p triangleT ⟨10, 0⟩ (by rfl)
  have h1 : crossedB p ⟨0, 0⟩ ⟨10, 0⟩ = false := by simp [crossedB]
  have h2 : crossedB p ⟨0, 10⟩ ⟨0, 0⟩ = true ↔ (0 ≤ p.y ∧ p.y < 10 ∧ p.x < 0) := by
    simp only [crossedB, Bool.and_eq_true, straddle_iff, decide_eq_true_iff]
    norm_num
    tauto
  have h3 : crossedB p ⟨10, 0⟩ ⟨0, 10⟩ = true ↔ (0 ≤ p.y ∧ p.y < 10 ∧ p.x + p.y < 10) := by
    simp only [crossedB, Bool.and_eq_true, straddle_iff, decide_eq_true_iff]
    norm_num
    have e : -(10 * p.y) / 10 + 10 = 10 - p.y := by ring
    rw [e]
    constructor
    · rintro ⟨⟨a, b⟩, c⟩; exact ⟨a, b, by linarith⟩
    · rintro ⟨a, b, c⟩; exact ⟨⟨a, b⟩, by linarith⟩
  have hval : isPointInPolygon p triangleT
      = xor (crossedB p ⟨0, 10⟩ ⟨0, 0⟩) (crossedB p ⟨10, 0⟩ ⟨0, 10⟩) := by
    simp only [isPointInPolygon, hw]
    simp only [triangleT, walk, h1, Bool.false_xor, Bool.xor_false]
  rw [hval]
  by_cases c2 : crossedB p ⟨0, 10⟩ ⟨0, 0⟩ = true <;>
    by_cases c3 : crossedB p ⟨10, 0⟩ ⟨0, 10⟩ = true
  · have a := h2.mp c2
    rw [c2, c3]
    constructor
    · intro h; exact absurd h (by simp)
    · intro h; linarith [h.1, a.2.2]
  · have a := h2.mp c2
    exact absurd (h3.mpr ⟨a.1, a.2.1, by linarith [a.2.2, a.2.1]⟩) c3
  · have b := h3.mp c3
    have c2' : crossedB p ⟨0, 10⟩ ⟨0, 0⟩ = false := by simpa using c2
    rw [c2', c3]
    simp only [Bool.false_xor, true_iff]
    refine ⟨?_, b.1, b.2.2⟩
    by_contra hx
    exact c2 (h2.mpr ⟨b.1, b.2.1, by linarith⟩)
  · have c2' : crossedB p ⟨0, 10⟩ ⟨0, 0⟩ = false := by simpa using c2
    have c3' : crossedB p ⟨10, 0⟩ ⟨0, 10⟩ = false := by simpa using c3
    rw [c2', c3']
    constructor
    · intro h; exact absurd h (by simp)
    · rintro ⟨hx, hy, hs⟩
      exact absurd (h3.mpr ⟨hy, by linarith, hs⟩) c3

/-! ## Where a point that the predicate accepts can lie -/

theorem onLine_between (vi vj : Point) (x y : ℚ)
    (hs : min vi.y vj.y ≤ y ∧ y < max vi.y vj.y) (hl : onLine vi vj x y) :
    min vi.x vj.x ≤ x ∧ x ≤ max vi.x vj.x := by
  unfold onLine at hl
  rcases le_total vi.y vj.y with hle | hle
  · rw [min_eq_left hle, max_eq_right hle] at hs
    constructor
    · by_contra hc
      rw [not_le, lt_min_iff] at hc
      nlinarith [mul_nonneg (sub_pos.mpr hc.2).le (sub_nonneg.mpr hs.1),
        mul_pos (sub_pos.mpr hc.1) (sub_pos.mpr hs.2)]
    · by_contra hc
      rw [not_le, max_lt_iff] at hc
      nlinarith [mul_nonneg (sub_pos.mpr hc.2).le (sub_nonneg.mpr hs.1),
        mul_pos (sub_pos.mpr hc.1) (sub_pos.mpr hs.2)]
  · rw [min_eq_right hle, max_eq_left hle] at hs
    constructor
    · by_contra hc
      rw [not_le, lt_min_iff] at hc
      nlinarith [mul_pos (sub_pos.mpr hc.2) (sub_pos.mpr hs.2),
        mul_nonneg (sub_pos.mpr hc.1).le (sub_nonneg.mpr hs.1)]
    · by_contra hc
      rw [not_le, max_lt_iff] at hc
      nlinarith [mul_pos (sub_pos.mpr hc.2) (sub_pos.mpr hs.2),
        mul_nonneg (sub_pos.mpr hc.1).le (sub_nonneg.mpr hs.1)]

theorem crossedB_lt_max (point vi vj : Point) (h : crossedB point vi vj = true) :
    point.x < max vi.x vj.x := by
  obtain ⟨hs, x, hl, hx⟩ := (crossedB_iff point vi vj).mp h
  exact lt_of_lt_of_le hx (onLine_between vi vj x point.y hs hl).2

theorem crossedB_of_left (point vi vj : Point) (hi : point.x < vi.x) (hj : point.x < vj.x) :
    crossedB point vi vj = xor (decide (vi.y > point.y)) (decide (vj.y > point.y)) := by
  by_cases hs : (decide (vi.y > point.y) != decide (vj.y > point.y)) = true
  · have hs' := (straddle_iff vi.y vj.y point.y).mp hs
    have hne : vj.y - vi.y ≠ 0 := by
      intro h0
      have : vj.y = vi.y := by linarith
      rw [this, min_self, max_self] at hs'
      exact absurd hs'.2 (not_lt.mpr hs'.1)
    have hl : onLine vi vj ((vj.x - vi.x) * (point.y - vi.y) / (vj.y - vi.y) + vi.x) point.y := by
      unfold onLine
      field_simp
      ring
    have hb := (onLine_between vi vj _ point.y hs' hl).1
    have hc : crossedB point vi vj = true :=
      (crossedB_iff point vi vj).mpr ⟨hs', _, hl, lt_of_lt_of_le (lt_min hi hj) hb⟩
    rw [hc]
    revert hs
    cases decide (vi.y > point.y) <;> cases decide (vj.y > point.y) <;> simp
  · have hc : crossedB point vi vj = false := by
      unfold crossedB
      simp only [Bool.not_eq_true] at hs
      rw [hs, Bool.false_and]
    rw [hc]
    revert hs
    cases decide (vi.y > point.y) <;> cases decide (vj.y > point.y) <;> simp

theorem walk_eq_false (point : Point) (P : Point → Prop)
    (hP : ∀ u v, P u → P v → crossedB point v u = false) :
    ∀ (vs : List Point) (prev : Point), P prev → (∀ v ∈ vs, P v) → walk point prev vs = false := by
  intro vs
  induction vs with
  | nil => intro prev _ _; rfl
  | cons v vs ih =>
    intro prev hprev hall
    have hv : P v := hall v (List.mem_cons_self _ _)
    simp only [walk, hP prev v hprev hv,
      ih v hv (fun w hw => hall w (List.mem_cons_of_mem _ hw)), Bool.xor_false]

theorem walk_telescope (point : Point) :
    ∀ (vs : List Point) (prev : Point), point.x < prev.x → (∀ v ∈ vs, point.x < v.x) →
      walk point prev vs
        = xor (decide (prev.y > point.y)) (decide ((vs.getLastD prev).y > point.y)) := by
  intro vs
  induction vs with
  | nil => intro prev _ _; simp [walk]
  | cons v vs ih =>
    intro prev hprev hall
    have hv : point.x < v.x := hall v (List.mem_cons_self _ _)
    simp only [walk, crossedB_of_left point v prev hv hprev,
      ih v hv (fun w hw => hall w (List.mem_cons_of_mem _ hw)), List.getLastD_cons]
    cases decide (v.y > point.y) <;> cases decide (prev.y > point.y) <;>
      cases decide ((vs.getLastD v).y > point.y) <;> rfl

theorem inside_bounds (point : Point) (polygon : List Point)
    (h : isPointInPolygon point polygon = true) :
    (polygon.length < SIZE_MOD → ∃ a ∈ polygon, a.x ≤ point.x) ∧
    (∃ b ∈ polygon, point.x < b.x) ∧
    (∃ c ∈ polygon, c.y ≤ point.y) ∧ (∃ d ∈ polygon, point.y < d.y) := by
  have hne : polygon ≠ [] := by
    rintro rfl
    simp [isPointInPolygon, checked_nil] at h
  have hpos : 0 < polygon.length := List.length_pos.mpr hne
  have hj := start_index_lt polygon.length hpos
  have hw := checked_eq_walk point polygon _ (vecAt_of_lt polygon _ hj)
  have hwalk : walk point (polygon.get ⟨_, hj⟩) polygon = true := by
    simpa [isPointInPolygon, hw] using h
  have hmem : polygon.get ⟨_, hj⟩ ∈ polygon := List.get_mem _ _ _
  refine ⟨?_, ?_, ?_, ?_⟩
  · intro hsize
    by_contra hc
    push_neg at hc
    have hlt : polygon.length - 1 < polygon.length := by omega
    have hlast : polygon.getLastD (polygon.get ⟨_, hj⟩) = polygon.get ⟨_, hj⟩ := by
      rw [List.getLastD_eq_getLast?, List.getLast?_eq_getElem?]
      have : polygon[polygon.length - 1]? = some (polygon.get ⟨_, hj⟩) := by
        simp [List.getElem?_eq_getElem hlt, start_index_eq polygon.length hpos hsize]
      rw [this]
      rfl
    have := walk_telescope point polygon _ (hc _ hmem) hc
    rw [hlast, Bool.xor_self] at this
    rw [this] at hwalk
    exact absurd hwalk (by simp)
  · by_contra hc
    push_neg at hc
    have := walk_eq_false point (fun v => v.x ≤ point.x) (fun u v hu hv => by
      by_contra hcr
      have := crossedB_lt_max point v u (by simpa using hcr)
      exact absurd this (not_lt.mpr (max_le hv hu))) polygon _ (hc _ hmem) hc
    rw [this] at hwalk
    exact absurd hwalk (by simp)
  · by_contra hc
    push_neg at hc
    have := walk_eq_false point (fun v => point.y < v.y) (fun u v hu hv => by
      simp [crossedB, hu, hv]) polygon _ (hc _ hmem) hc
    rw [this] at hwalk
    exact absurd hwalk (by simp)
  · by_contra hc
    push_neg at hc
    have := walk_eq_false point (fun v => v.y ≤ point.y) (fun u v hu hv => by
      simp [crossedB, not_lt.mpr hu, not_lt.mpr hv]) polygon _ (hc _ hmem) hc
    rw [this] at hwalk
    exact absurd hwalk (by simp)

/-! ## The intersection handler: decoding, bounding box, filter -/

theorem filterInside_eq (polygon_points : List Point) (results : List Point) :
    filterInside polygon_points results
      = .ok (results.filter (fun p => isPointInPolygon p polygon_points)) := by
  induction results with
  | nil => rfl
  | cons q rest ih =>
    simp only [filterInside, checked_eq, ih, bind, Except.bind, pure, Except.pure, List.filter_cons]

theorem intersectionHandler_ok {σ : Type} (parse : String → Option Json) (ops : IndexOps σ)
    (rtree : σ) (body : String) (x : Json) (V : List Point)
    (hparse : parse body = some x) (hV : polygonPoints x = .ok V) :
    intersectionHandler parse ops rtree body
      = .ok ⟨⟨200, .dump (.arr (((ops.search rtree (queryRect V)).filter
            (fun p => isPointInPolygon p V)).map pointToLatLng))⟩,
          rtree, [.search (queryRect V)]⟩ := by
  simp only [intersectionHandler, hparse, hV, filterInside_eq]

theorem bbox_fold_bounds (V : List Point) : ∀ b0 : BBox,
    (V.foldl bboxStep b0).min_lat ≤ b0.min_lat ∧ (V.foldl bboxStep b0).min_lng ≤ b0.min_lng ∧
    b0.max_lat ≤ (V.foldl bboxStep b0).max_lat ∧ b0.max_lng ≤ (V.foldl bboxStep b0).max_lng ∧
    ∀ v ∈ V, (V.foldl bboxStep b0).min_lat ≤ v.x ∧ (V.foldl bboxStep b0).min_lng ≤ v.y ∧
      v.x ≤ (V.foldl bboxStep b0).max_lat ∧ v.y ≤ (V.foldl bboxStep b0).max_lng := by
  induction V with
  | nil => intro b0; simp
  | cons w ws ih =>
    intro b0
    obtain ⟨h1, h2, h3, h4, h5⟩ := ih (bboxStep b0 w)
    simp only [bboxStep] at h1 h2 h3 h4
    simp only [List.foldl_cons]
    refine ⟨h1.trans (min_le_left _ _), h2.trans (min_le_left _ _),
      (le_max_left _ _).trans h3, (le_max_left _ _).trans h4, ?_⟩
    intro v hv
    rcases List.mem_cons.mp hv with rfl | hv
    · exact ⟨h1.trans (min_le_right _ _), h2.trans (min_le_right _ _),
        (le_max_right _ _).trans h3, (le_max_right _ _).trans h4⟩
    · exact h5 v hv

theorem bbox_fold_attained (V : List Point) : ∀ b0 : BBox,
    ((V.foldl bboxStep b0).min_lat = b0.min_lat ∨ ∃ v ∈ V, v.x = (V.foldl bboxStep b0).min_lat) ∧
    ((V.foldl bboxStep b0).min_lng = b0.min_lng ∨ ∃ v ∈ V, v.y = (V.foldl bboxStep b0).min_lng) ∧
    ((V.foldl bboxStep b0).max_lat = b0.max_lat ∨ ∃ v ∈ V, v.x = (V.foldl bboxStep b0).max_lat) ∧
    ((V.foldl bboxStep b0).max_lng = b0.max_lng ∨ ∃ v ∈ V, v.y = (V.foldl bboxStep b0).max_lng) := by
  induction V with
  | nil => intro b0; simp
  | cons w ws ih =>
    intro b0
    obtain ⟨h1, h2, h3, h4⟩ := ih (bboxStep b0 w)
    simp only [bboxStep] at h1 h2 h3 h4
    simp only [List.foldl_cons]
    refine ⟨?_, ?_, ?_, ?_⟩
    · rcases h1 with h | ⟨v, hv, h⟩
      · rcases min_choice b0.min_lat w.x with hm | hm
        · left; exact h.trans hm
        · right; exact ⟨w, List.mem_cons_self _ _, (h.trans hm).symm⟩
      · right; exact ⟨v, List.mem_cons_of_mem _ hv, h⟩
    · rcases h2 with h | ⟨v, hv, h⟩
      · rcases min_choice b0.min_lng w.y with hm | hm
        · left; exact h.trans hm
        · right; exact ⟨w, List.mem_cons_self _ _, (h.trans hm).symm⟩
      · right; exact ⟨v, List.mem_cons_of_mem _ hv, h⟩
    · rcases h3 with h | ⟨v, hv, h⟩
      · rcases max_choice b0.max_lat w.x with hm | hm
        · left; exact h.trans hm
        · right; exact ⟨w, List.mem_cons_self _ _, (h.trans hm).symm⟩
      · right; exact ⟨v, List.mem_cons_of_mem _ hv, h⟩
    · rcases h4 with h | ⟨v, hv, h⟩
      · rcases max_choice b0.max_lng w.y with hm | hm
        · left; exact h.trans hm
        · right; exact ⟨w, List.mem_cons_self _ _, (h.trans hm).symm⟩
      · right; exact ⟨v, List.mem_cons_of_mem _ hv, h⟩

theorem boundingBox_bounds (V : List Point) :
    ∀ v ∈ V, (boundingBox V).min_lat ≤ v.x ∧ (boundingBox V).min_lng ≤ v.y ∧
      v.x ≤ (boundingBox V).max_lat ∧ v.y ≤ (boundingBox V).max_lng :=
  (bbox_fold_bounds V _).2.2.2.2

theorem queryRect_eq (V : List Point) (hne : V ≠ []) :
    queryRect V = ⟨⟨(boundingBox V).min_lat, (boundingBox V).min_lng⟩,
      ⟨(boundingBox V).max_lat, (boundingBox V).max_lng⟩⟩ := by
  obtain ⟨v, hv⟩ := List.exists_mem_of_ne_nil V hne
  obtain ⟨h1, h2, h3, h4⟩ := boundingBox_bounds V v hv
  simp only [queryRect, Rectangle.ofCorners, min_eq_left (h1.trans h3), min_eq_left (h2.trans h4),
    max_eq_right (h1.trans h3), max_eq_right (h2.trans h4)]

theorem boundingBox_attained (V : List Point) (hne : V ≠ [])
    (hrange : ∀ v ∈ V, inDoubleRange v.x ∧ inDoubleRange v.y) :
    (∃ v ∈ V, v.x = (boundingBox V).min_lat) ∧ (∃ v ∈ V, v.y = (boundingBox V).min_lng) ∧
    (∃ v ∈ V, v.x = (boundingBox V).max_lat) ∧ (∃ v ∈ V, v.y = (boundingBox V).max_lng) := by
  obtain ⟨v, hv⟩ := List.exists_mem_of_ne_nil V hne
  obtain ⟨h1, h2, h3, h4⟩ := boundingBox_bounds V v hv
  obtain ⟨⟨rx1, rx2⟩, ⟨ry1, ry2⟩⟩ := hrange v hv
  obtain ⟨a1, a2, a3, a4⟩ := bbox_fold_attained V
    { min_lat := DBL_MAX, min_lng := DBL_MAX, max_lat := DBL_LOWEST, max_lng := DBL_LOWEST }
  simp only at a1 a2 a3 a4
  refine ⟨?_, ?_, ?_, ?_⟩
  · rcases a1 with h | h
    · exact ⟨v, hv, le_antisymm (by rw [boundingBox, h]; exact rx2) h1⟩
    · exact h
  · rcases a2 with h | h
    · exact ⟨v, hv, le_antisymm (by rw [boundingBox, h]; exact ry2) h2⟩
    · exact h
  · rcases a3 with h | h
    · exact ⟨v, hv, le_antisymm h3 (by rw [boundingBox, h]; exact rx1)⟩
    · exact h
  · rcases a4 with h | h
    · exact ⟨v, hv, le_antisymm h4 (by rw [boundingBox, h]; exact ry1)⟩
    · exact h

theorem inside_imp_contains (point : Point) (polygon : List Point)
    (hsize : polygon.length < SIZE_MOD) (h : isPointInPolygon point polygon = true) :
    (queryRect polygon).contains point = true := by
  obtain ⟨ha, ⟨b, hb, hb'⟩, ⟨c, hc, hc'⟩, ⟨d, hd, hd'⟩⟩ := inside_bounds point polygon h
  obtain ⟨a, ha, ha'⟩ := ha hsize
  have hne : polygon ≠ [] := List.ne_nil_of_mem ha
  rw [queryRect_eq polygon hne]
  simp only [Rectangle.contains, Bool.and_eq_true, decide_eq_true_iff]
  exact ⟨⟨⟨(boundingBox_bounds polygon a ha).1.trans ha',
    hb'.le.trans (boundingBox_bounds polygon b hb).2.2.1⟩,
    (boundingBox_bounds polygon c hc).2.1.trans hc'⟩,
    hd'.le.trans (boundingBox_bounds polygon d hd).2.2.2⟩

/-! ## Decoding the request bodies -/

theorem latLngFields_ok (x : Json) (lat lng : ℚ) (hlat : x.numberField "lat" = some lat)
    (hlng : x.numberField "lng" = some lng) : latLngFields x = .ok (lat, lng) := by
  cases x with
  | obj members =>
    simp only [Json.numberField] at hlat hlng
    cases h1 : members.lookup "lat" with
    | none => simp [h1] at hlat
    | some v1 =>
      cases h2 : members.lookup "lng" with
      | none => simp [h2] at hlng
      | some v2 =>
        cases v1 <;> simp [h1] at hlat
        cases v2 <;> simp [h2] at hlng
        subst hlat hlng
        simp [latLngFields, Json.atKey, Json.toDouble, h1, h2, bind, Except.bind, pure,
          Except.pure]
  | _ => simp [Json.numberField] at hlat

theorem latLngFields_error (x : Json)
    (h : x.numberField "lat" = none ∨ x.numberField "lng" = none) :
    ∀ r, latLngFields x ≠ .ok r := by
  intro r
  cases x with
  | obj members =>
    simp only [Json.numberField] at h
    cases h1 : members.lookup "lat" with
    | none => simp [latLngFields, Json.atKey, Json.toDouble, h1, bind, Except.bind]
    | some v1 =>
      cases v1 with
      | num q1 =>
        cases h2 : members.lookup "lng" with
        | none => simp [latLngFields, Json.atKey, Json.toDouble, h1, h2, bind, Except.bind]
        | some v2 =>
          cases v2 with
          | num q2 => simp [h1, h2] at h
          | _ => simp [latLngFields, Json.atKey, Json.toDouble, h1, h2, bind, Except.bind]
      | _ => simp [latLngFields, Json.atKey, Json.toDouble, h1, bind, Except.bind]
  | _ => simp [latLngFields, Json.atKey, Json.toDouble, bind, Except.bind]

theorem parseVertex_of_isVertex (e : Json) (h : e.isVertex = true) :
    ∃ v, parseVertex e = .ok v := by
  cases e with
  | arr items =>
    cases items with
    | nil => simp [Json.isVertex] at h
    | cons a tl =>
      cases tl with
      | nil => cases a <;> simp [Json.isVertex] at h
      | cons b tl2 =>
        cases a with
        | num q1 =>
          cases b with
          | num q2 =>
            exact ⟨⟨q1, q2⟩, by
              simp [parseVertex, Json.atIdx, Json.toDouble, bind, Except.bind, pure, Except.pure,
                latLngToPoint]⟩
          | _ => simp [Json.isVertex] at h
        | _ => simp [Json.isVertex] at h
  | _ => simp [Json.isVertex] at h

theorem parseVertex_of_rejected (e : Json) (h : e.isRejectedVertex = true) :
    ∃ ex, parseVertex e = .error (.thrown ex) := by
  cases e with
  | arr items =>
    cases items with
    | nil => simp [Json.isRejectedVertex] at h
    | cons a tl =>
      cases a with
      | num q1 =>
        cases tl with
        | nil => simp [Json.isRejectedVertex] at h
        | cons b tl2 =>
          cases b with
          | num q2 => simp [Json.isRejectedVertex] at h
          | _ =>
            exact ⟨.typeError 302, by
              simp [parseVertex, Json.atIdx, Json.toDouble, bind, Except.bind, pure, Except.pure,
                throw, throwThe, MonadExceptOf.throw]⟩
      | _ =>
        exact ⟨.typeError 302, by
          simp [parseVertex, Json.atIdx, Json.toDouble, bind, Except.bind, throw, throwThe,
            MonadExceptOf.throw]⟩
  | _ => exact ⟨_, rfl⟩

theorem parseVertices_all (items : List Json) (h : ∀ e ∈ items, e.isVertex = true) :
    ∃ V, parseVertices items = .ok V ∧ V.length = items.length := by
  induction items with
  | nil => exact ⟨[], rfl, rfl⟩
  | cons e rest ih =>
    obtain ⟨v, hv⟩ := parseVertex_of_isVertex e (h e (List.mem_cons_self _ _))
    obtain ⟨V, hV, hlen⟩ := ih (fun g hg => h g (List.mem_cons_of_mem _ hg))
    exact ⟨v :: V, by simp [parseVertices, hv, hV, bind, Except.bind, pure, Except.pure],
      by simp [hlen]⟩

theorem parseVertices_rejected (items : List Json)
    (h : firstNonVertexRejected items = true) :
    ∃ ex, parseVertices items = .error (.thrown ex) := by
  induction items with
  | nil => simp [firstNonVertexRejected] at h
  | cons e rest ih =>
    by_cases hv : e.isVertex = true
    · simp only [firstNonVertexRejected, hv, if_true] at h
      obtain ⟨v, hv'⟩ := parseVertex_of_isVertex e hv
      obtain ⟨ex, hex⟩ := ih h
      exact ⟨ex, by simp [parseVertices, hv', hex, bind, Except.bind]⟩
    · simp only [firstNonVertexRejected, hv] at h
      obtain ⟨ex, hex⟩ := parseVertex_of_rejected e (by simpa using h)
      exact ⟨ex, by simp [parseVertices, hex, bind, Except.bind]⟩

theorem polygonPoints_wrongTyped (x : Json) (h : wrongTypedPoints x = true) :
    ∃ ex, polygonPoints x = .error (.thrown ex) := by
  cases x with
  | null => simp [wrongTypedPoints] at h
  | obj members =>
    simp only [wrongTypedPoints] at h
    cases hl : members.lookup "points" with
    | none => simp [hl] at h
    | some pts =>
      cases pts with
      | null => simp [hl] at h
      | obj ms => simp [hl] at h
      | arr items =>
        simp only [hl] at h
        obtain ⟨ex, hex⟩ := parseVertices_rejected items h
        exact ⟨ex, by simp [polygonPoints, Json.atKey, hl, Json.elements, hex]⟩
      | bool b => exact ⟨_, by simp [polygonPoints, Json.atKey, hl, Json.elements]; rfl⟩
      | num q => exact ⟨_, by simp [polygonPoints, Json.atKey, hl, Json.elements]; rfl⟩
      | str t => exact ⟨_, by simp [polygonPoints, Json.atKey, hl, Json.elements]; rfl⟩
  | _ => exact ⟨_, rfl⟩

/-! ## The polygon predicate in double precision: the loop -/

theorem loopBodyDouble_ok (point : Point) (polygon : List Point) (b : Bool) (i j : Nat)
    (vi vj : Point) (hi : vecAt polygon i = .ok vi) (hj : vecAt polygon j = .ok vj) :
    loopBodyDouble point polygon (b, j) i = .ok (xor b (edgeCrossedDouble point vi vj), i) := by
  unfold loopBodyDouble
  simp only [hi, hj, bind, Except.bind, pure, Except.pure]
  cases b <;> cases edgeCrossedDouble point vi vj <;> rfl

theorem fold_walkWith (polygon : List Point) (step : Bool × Nat → Nat → Except Fault (Bool × Nat))
    (c : Point → Point → Bool)
    (hstep : ∀ (b : Bool) (i j : Nat) (vi vj : Point), vecAt polygon i = .ok vi →
      vecAt polygon j = .ok vj → step (b, j) i = .ok (xor b (c vi vj), i)) :
    ∀ (suf pre : List Point) (b : Bool) (j : Nat) (prev : Point),
      polygon = pre ++ suf → vecAt polygon j = .ok prev →
      ∃ j', (List.range' pre.length suf.length).foldlM step (b, j)
        = .ok (xor b (walkWith c prev suf), j') := by
  intro suf
  induction suf with
  | nil =>
    intro pre b j prev _ _
    exact ⟨j, by simp [walkWith, pure, Except.pure]⟩
  | cons v vs ih =>
    intro pre b j prev hV hj
    have hv : vecAt polygon pre.length = .ok v := by
      apply vecAt_of_getElem?
      rw [hV, List.getElem?_append_right (le_refl _)]
      simp
    have hs := hstep b pre.length j v prev hv hj
    obtain ⟨j', hj'⟩ := ih (pre ++ [v]) (xor b (c v prev)) pre.length v (by simp [hV]) hv
    refine ⟨j', ?_⟩
    simp only [List.length_cons, List.range'_succ, List.foldlM_cons, hs, bind, Except.bind]
    simp only [List.length_append, List.length_singleton] at hj'
    rw [hj']
    simp [walkWith, Bool.xor_assoc]

theorem checkedDouble_nil (point : Point) :
    isPointInPolygonDoubleChecked point [] = .ok false := by
  simp [isPointInPolygonDoubleChecked, bind, Except.bind, pure, Except.pure]

theorem checkedDouble_eq_walk (point : Point) (polygon : List Point) (prev : Point)
    (hprev : vecAt polygon ((polygon.length + SIZE_MOD - 1) % SIZE_MOD) = .ok prev) :
    isPointInPolygonDoubleChecked point polygon
      = .ok (walkWith (edgeCrossedDouble point) prev polygon) := by
  obtain ⟨j', hj'⟩ := fold_walkWith polygon (loopBodyDouble point polygon)
    (edgeCrossedDouble point) (loopBodyDouble_ok point polygon) polygon [] false _ prev
    (by simp) hprev
  unfold isPointInPolygonDoubleChecked
  rw [List.range_eq_range']
  simp only [List.length_nil] at hj'
  rw [hj']
  simp [bind, Except.bind, pure, Except.pure]

theorem checkedDouble_ok (point : Point) (polygon : List Point) :
    ∃ b, isPointInPolygonDoubleChecked point polygon = .ok b := by
  cases hp : polygon with
  | nil => exact ⟨false, checkedDouble_nil point⟩
  | cons v vs =>
    have hlt := start_index_lt (v :: vs).length (by simp)
    exact ⟨_, checkedDouble_eq_walk point (v :: vs) _ (vecAt_of_lt _ _ hlt)⟩

theorem checkedDouble_eq (point : Point) (polygon : List Point) :
    isPointInPolygonDoubleChecked point polygon
      = .ok (isPointInPolygonDouble point polygon) := by
  obtain ⟨b, hb⟩ := checkedDouble_ok point polygon
  simp [isPointInPolygonDouble, hb]

theorem walk_eq_walkWith (point : Point) :
    ∀ (vs : List Point) (prev : Point), walk point prev vs = walkWith (crossedB point) prev vs := by
  intro vs
  induction vs with
  | nil => intro prev; rfl
  | cons v vs ih => intro prev; simp only [walk, walkWith, ih]

theorem walkWith_congr (c c' : Point → Point → Bool) (P : Point → Prop)
    (h : ∀ u v, P u → P v → c v u = c' v u) :
    ∀ (vs : List Point) (prev : Point), P prev → (∀ v ∈ vs, P v) →
      walkWith c prev vs = walkWith c' prev vs := by
  intro vs
  induction vs with
  | nil => intro prev _ _; rfl
  | cons v vs ih =>
    intro prev hprev hall
    have hv : P v := hall v (List.mem_cons_self _ _)
    simp only [walkWith, h prev v hprev hv,
      ih v hv (fun w hw => hall w (List.mem_cons_of_mem _ hw))]

theorem walkWith_eq_false (c : Point → Point → Bool) (P : Point → Prop)
    (hP : ∀ u v, P u → P v → c v u = false) :
    ∀ (vs : List Point) (prev : Point), P prev → (∀ v ∈ vs, P v) →
      walkWith c prev vs = false := by
  intro vs
  induction vs with
  | nil => intro prev _ _; rfl
  | cons v vs ih =>
    intro prev hprev hall
    have hv : P v := hall v (List.mem_cons_self _ _)
    simp only [walkWith, hP prev v hprev hv,
      ih v hv (fun w hw => hall w (List.mem_cons_of_mem _ hw)), Bool.xor_false]

theorem interpDouble_exact (point vi vj : Point) (hne : vj.y - vi.y ≠ 0)
    (h : exactOps point vi vj) :
    interpDouble point vi vj
      = .finite ((vj.x - vi.x) * (point.y - vi.y) / (vj.y - vi.y) + vi.x) := by
  obtain ⟨h1, h2, h3, h4, h5, h6⟩ := h
  simp only [interpDouble, Dbl.sub, Dbl.neg, Dbl.add, ← sub_eq_add_neg, h1, h2, h4, Dbl.mul, h3,
    Dbl.div, hne, if_false, h5, h6]

theorem edgeCrossedDouble_eq_crossedB (point vi vj : Point)
    (h : (decide (vi.y > point.y) != decide (vj.y > point.y)) = true → exactOps point vi vj) :
    edgeCrossedDouble point vi vj = crossedB point vi vj := by
  unfold edgeCrossedDouble crossedB
  by_cases hs : (decide (vi.y > point.y) != decide (vj.y > point.y)) = true
  · have hne : vj.y - vi.y ≠ 0 := by
      intro h0
      have : vj.y = vi.y := by linarith
      rw [this] at hs
      simp at hs
    rw [interpDouble_exact point vi vj hne (h hs)]
    rfl
  · simp only [Bool.not_eq_true] at hs
    rw [hs, Bool.false_and, Bool.false_and]

theorem double_eq_exact (point : Point) (polygon : List Point)
    (h : ∀ vi ∈ polygon, ∀ vj ∈ polygon,
      (decide (vi.y > point.y) != decide (vj.y > point.y)) = true → exactOps point vi vj) :
    isPointInPolygonDouble point polygon = isPointInPolygon point polygon := by
  cases hp : polygon with
  | nil => simp [isPointInPolygonDouble, isPointInPolygon, checkedDouble_nil, checked_nil]
  | cons v vs =>
    rw [← hp]
    have hpos : 0 < polygon.length := by simp [hp]
    have hj := start_index_lt polygon.length hpos
    have hmem : polygon.get ⟨_, hj⟩ ∈ polygon := List.get_mem _ _ _
    have h1 := checkedDouble_eq_walk point polygon _ (vecAt_of_lt polygon _ hj)
    have h2 := checked_eq_walk point polygon _ (vecAt_of_lt polygon _ hj)
    have h3 := walkWith_congr (edgeCrossedDouble point) (crossedB point) (fun v => v ∈ polygon)
      (fun u v hu hv => edgeCrossedDouble_eq_crossedB point v u (h v hv u hu)) polygon _ hmem
      (fun v hv => hv)
    simp only [isPointInPolygonDouble, isPointInPolygon, h1, h2, h3, walk_eq_walkWith]

theorem doubleInside_heights (point : Point) (polygon : List Point)
    (h : isPointInPolygonDouble point polygon = true) :
    (∃ c ∈ polygon, c.y ≤ point.y) ∧ (∃ d ∈ polygon, point.y < d.y) := by
  have hne : polygon ≠ [] := by
    rintro rfl
    simp [isPointInPolygonDouble, checkedDouble_nil] at h
  have hpos : 0 < polygon.length := List.length_pos.mpr hne
  have hj := start_index_lt polygon.length hpos
  have hw := checkedDouble_eq_walk point polygon _ (vecAt_of_lt polygon _ hj)
  have hwalk : walkWith (edgeCrossedDouble point) (polygon.get ⟨_, hj⟩) polygon = true := by
    simpa [isPointInPolygonDouble, hw] using h
  have hmem : polygon.get ⟨_, hj⟩ ∈ polygon := List.get_mem _ _ _
  constructor
  · by_contra hc
    push_neg at hc
    have := walkWith_eq_false (edgeCrossedDouble point) (fun v => point.y < v.y)
      (fun u v hu hv => by simp [edgeCrossedDouble, hu, hv]) polygon _ (hc _ hmem) hc
    rw [this] at hwalk
    exact absurd hwalk (by simp)
  · by_contra hc
    push_neg at hc
    have := walkWith_eq_false (edgeCrossedDouble point) (fun v => v.y ≤ point.y)
      (fun u v hu hv => by simp [edgeCrossedDouble, not_lt.mpr hu, not_lt.mpr hv]) polygon _
      (hc _ hmem) hc
    rw [this] at hwalk
    exact absurd hwalk (by simp)

theorem filterInsideDouble_eq (polygon_points : List Point) (results : List Point) :
    filterInsideDouble polygon_points results
      = .ok (results.filter (fun p => isPointInPolygonDouble p polygon_points)) := by
  induction results with
  | nil => rfl
  | cons q rest ih =>
    simp only [filterInsideDouble, checkedDouble_eq, ih, bind, Except.bind, pure, Except.pure,
      List.filter_cons]

theorem intersectionHandlerDouble_ok {σ : Type} (parse : String → Option Json)
    (ops : IndexOps σ) (rtree : σ) (body : String) (x : Json) (V : List Point)
    (hparse : parse body = some x) (hV : polygonPoints x = .ok V) :
    intersectionHandlerDouble parse ops rtree body
      = .ok ⟨⟨200, .dump (.arr (((ops.search rtree (queryRect V)).filter
            (fun p => isPointInPolygonDouble p V)).map
              (fun p => Json.obj [("lat", .num p.x), ("lng", .num p.y)])))⟩,
          rtree, [.search (queryRect V)]⟩ := by
  simp only [intersectionHandlerDouble, hparse, hV, filterInsideDouble_eq]
  rfl

theorem triangle_exact_rows :
    ∀ n : ℕ, n < 10 → ∀ vi ∈ triangleT, ∀ vj ∈ triangleT, exactOps ⟨0, ((n : ℕ) : ℚ)⟩ vi vj := by
  decide!

theorem exactOps_congr_y (p q : Point) (vi vj : Point) (h : p.y = q.y) :
    exactOps p vi vj ↔ exactOps q vi vj := by
  unfold exactOps
  rw [h]

theorem triangle_double_eq_exact (p : Point) (k : ℤ) (hy : p.y = k) :
    isPointInPolygonDouble p triangleT = isPointInPolygon p triangleT := by
  apply double_eq_exact
  intro vi hvi vj hvj hs
  have hs' := (straddle_iff vi.y vj.y p.y).mp hs
  have hvy : ∀ v ∈ triangleT, 0 ≤ v.y ∧ v.y ≤ 10 := by
    intro v hv
    simp only [triangleT, List.mem_cons, List.mem_singleton, List.not_mem_nil, or_false] at hv
    rcases hv with rfl | rfl | rfl <;> norm_num
  have h0 : 0 ≤ p.y := (le_min (hvy vi hvi).1 (hvy vj hvj).1).trans hs'.1
  have h10 : p.y < 10 := lt_of_lt_of_le hs'.2 (max_le (hvy vi hvi).2 (hvy vj hvj).2)
  rw [hy] at h0 h10
  have hk0 : 0 ≤ k := by exact_mod_cast h0
  have hk10 : k < 10 := by exact_mod_cast h10
  have hn : k.toNat < 10 := by omega
  have hcast : p.y = ((k.toNat : ℕ) : ℚ) := by
    rw [hy]
    have : ((k.toNat : ℕ) : ℤ) = k := Int.toNat_of_nonneg hk0
    exact_mod_cast this.symm
  exact (exactOps_congr_y p ⟨0, ((k.toNat : ℕ) : ℚ)⟩ vi vj hcast).mpr
    (triangle_exact_rows k.toNat hn vi hvi vj hvj)

/-! ## The properties of the polygon predicate -/

/-- C1: for every point and every vertex list of a length `n` that a `size_t`
can hold, `isPointInPolygon` returns, and it returns true exactly when the
number of indices `i` in `0..n-1` whose edge `(V[i-1], V[i])`, taken
cyclically, is counted as crossed is odd. -/
theorem isPointInPolygon_iff_odd_crossings (point : Point) (polygon : List Point)
    (hsize : polygon.length < SIZE_MOD) :
    isPointInPolygonChecked point polygon
        = .ok (decide (Odd ((List.range polygon.length).countP (edgeCountedAt point polygon)))) ∧
    (isPointInPolygon point polygon = true ↔
      Odd ((List.range polygon.length).countP (edgeCountedAt point polygon))) := by
  have key : isPointInPolygonChecked point polygon
      = .ok (decide (Odd ((List.range polygon.length).countP (edgeCountedAt point polygon)))) := by
    cases hp : polygon with
    | nil => simp [checked_nil]
    | cons v vs =>
      rw [← hp]
      have hpos : 0 < polygon.length := by simp [hp]
      have hlt : polygon.length - 1 < polygon.length := by omega
      have hstart := start_index_eq polygon.length hpos hsize
      have hlast : polygon[polygon.length - 1]? = some (polygon.get ⟨polygon.length - 1, hlt⟩) := by
        simp [List.getElem?_eq_getElem hlt]
      rw [checked_eq_walk point polygon (polygon.get ⟨polygon.length - 1, hlt⟩)
        (by rw [hstart]; exact vecAt_of_getElem? hlast)]
      rw [walk_count point polygon polygon [] _ (by simp) (by
        simp only [List.length_nil, Nat.zero_add]
        rw [Nat.mod_eq_of_lt hlt]; exact hlast)]
      simp [List.range_eq_range']
  refine ⟨key, ?_⟩
  simp [isPointInPolygon, key]

/-- C1, at the triangle `[(0,0),(0,10),(10,0)]` and the point `(1,1)`. -/
theorem isPointInPolygon_iff_odd_crossings_witness :
    isPointInPolygonChecked ⟨1, 1⟩ [⟨0, 0⟩, ⟨0, 10⟩, ⟨10, 0⟩]
        = .ok (decide (Odd ((List.range 3).countP
            (edgeCountedAt ⟨1, 1⟩ [⟨0, 0⟩, ⟨0, 10⟩, ⟨10, 0⟩])))) ∧
    (isPointInPolygon ⟨1, 1⟩ [⟨0, 0⟩, ⟨0, 10⟩, ⟨10, 0⟩] = true ↔
      Odd ((List.range 3).countP (edgeCountedAt ⟨1, 1⟩ [⟨0, 0⟩, ⟨0, 10⟩, ⟨10, 0⟩]))) :=
  isPointInPolygon_iff_odd_crossings ⟨1, 1⟩ [⟨0, 0⟩, ⟨0, 10⟩, ⟨10, 0⟩] (by decide)

/-- C2, as the code has it: an iteration of the loop over the edge
`(V[j], V[i])` ends in a defined state, and it toggles `inside` if and only
if exactly one endpoint lies strictly above the point's height, that is
`min ≤ point.y < max` over the two endpoint heights, and `point.x` is
strictly less than the value the code computes in `double` for
`(V[j].x - V[i].x) * (point.y - V[i].y) / (V[j].y - V[i].y) + V[i].x`.  When
none of these operations rounds, that value is the `x` of the edge's line at
height `point.y`; with rounding it need not be: at the point `(2.22, 7.78)`
the edge from `(0,10)` to `(10,0)` is counted although its line at that
height lies to the left of the point. -/
theorem loopBodyDouble_toggles_iff (point : Point) (polygon : List Point) (inside : Bool)
    (i j : Nat) (vi vj : Point) (hi : polygon[i]? = some vi) (hj : polygon[j]? = some vj) :
    (loopBodyDouble point polygon (inside, j) i = .ok (!inside, i) ∨
      loopBodyDouble point polygon (inside, j) i = .ok (inside, i)) ∧
    (loopBodyDouble point polygon (inside, j) i = .ok (!inside, i) ↔
      ((min vi.y vj.y ≤ point.y ∧ point.y < max vi.y vj.y) ∧
        Dbl.lt (.finite point.x)
          (Dbl.add
            (Dbl.div
              (Dbl.mul (Dbl.sub (.finite vj.x) (.finite vi.x))
                (Dbl.sub (.finite point.y) (.finite vi.y)))
              (Dbl.sub (.finite vj.y) (.finite vi.y)))
            (.finite vi.x)) = true)) ∧
    (exactOps point vi vj →
      (loopBodyDouble point polygon (inside, j) i = .ok (!inside, i) ↔
        ((min vi.y vj.y ≤ point.y ∧ point.y < max vi.y vj.y) ∧
          ∃ x, onLine vi vj x point.y ∧ point.x < x))) ∧
    (loopBodyDouble ⟨d2_22, d7_78⟩ triangleT (false, 1) 2 = .ok (true, 2) ∧
      ∀ x, onLine ⟨10, 0⟩ ⟨0, 10⟩ x d7_78 → x < d2_22) := by
  have h := loopBodyDouble_ok point polygon inside i j vi vj (vecAt_of_getElem? hi)
    (vecAt_of_getElem? hj)
  have hc : edgeCrossedDouble point vi vj = true ↔
      ((min vi.y vj.y ≤ point.y ∧ point.y < max vi.y vj.y) ∧
        Dbl.lt (.finite point.x) (interpDouble point vi vj) = true) := by
    unfold edgeCrossedDouble
    rw [Bool.and_eq_true, straddle_iff]
  refine ⟨?_, ?_, ?_, ?_, ?_⟩
  · rw [h]
    cases inside <;> cases edgeCrossedDouble point vi vj <;> simp
  · rw [h]
    have hc' := hc
    unfold interpDouble at hc'
    rw [← hc']
    cases inside <;> cases edgeCrossedDouble point vi vj <;> simp
  · intro hex
    rw [h, ← crossedB_iff, ← edgeCrossedDouble_eq_crossedB point vi vj (fun _ => hex)]
    cases inside <;> cases edgeCrossedDouble point vi vj <;> simp
  · rw [loopBodyDouble_ok ⟨d2_22, d7_78⟩ triangleT false 2 1 ⟨10, 0⟩ ⟨0, 10⟩ (by rfl) (by rfl)]
    have hc2 : edgeCrossedDouble ⟨d2_22, d7_78⟩ ⟨10, 0⟩ ⟨0, 10⟩ = true := by decide!
    rw [hc2]
    rfl
  · intro x hx
    unfold onLine at hx
    norm_num [d7_78] at hx
    norm_num [d2_22]
    linarith

/-- C2 as the code has it, at the point `(0,0)` and the edge from `(1,1)` to
`(1,0)`. -/
theorem loopBodyDouble_toggles_iff_witness :
    (loopBodyDouble ⟨0, 0⟩ [⟨1, 0⟩, ⟨1, 1⟩] (false, 1) 0 = .ok (!false, 0) ∨
      loopBodyDouble ⟨0, 0⟩ [⟨1, 0⟩, ⟨1, 1⟩] (false, 1) 0 = .ok (false, 0)) ∧
    (loopBodyDouble ⟨0, 0⟩ [⟨1, 0⟩, ⟨1, 1⟩] (false, 1) 0 = .ok (!false, 0) ↔
      ((min (Point.mk 1 0).y (Point.mk 1 1).y ≤ (Point.mk 0 0).y ∧
          (Point.mk 0 0).y < max (Point.mk 1 0).y (Point.mk 1 1).y) ∧
        ∃ x, onLine ⟨1, 0⟩ ⟨1, 1⟩ x (Point.mk 0 0).y ∧ (Point.mk 0 0).x < x)) :=
  ⟨(loopBodyDouble_toggles_iff ⟨0, 0⟩ [⟨1, 0⟩, ⟨1, 1⟩] false 0 1 ⟨1, 0⟩ ⟨1, 1⟩
      (by rfl) (by rfl)).1,
    (loopBodyDouble_toggles_iff ⟨0, 0⟩ [⟨1, 0⟩, ⟨1, 1⟩] false 0 1 ⟨1, 0⟩ ⟨1, 1⟩
      (by rfl) (by rfl)).2.2.1 (by decide!)⟩

/-- C2 fails as stated: at the point `(0,0)` the edge from `(1,1)` to `(1,0)`
is counted as crossed, although the point's height `0` equals an endpoint
height and so is not strictly between `0` and `1`. -/
theorem loopBodyDouble_toggles_at_endpoint_height :
    ¬ (loopBodyDouble ⟨0, 0⟩ [⟨1, 0⟩, ⟨1, 1⟩] (false, 1) 0 = .ok (!false, 0) ↔
      ((min (Point.mk 1 0).y (Point.mk 1 1).y < (Point.mk 0 0).y ∧
          (Point.mk 0 0).y < max (Point.mk 1 0).y (Point.mk 1 1).y) ∧
        ∃ x, onLine ⟨1, 0⟩ ⟨1, 1⟩ x (Point.mk 0 0).y ∧ (Point.mk 0 0).x < x)) := by
  intro h
  have hrun : loopBodyDouble ⟨0, 0⟩ [⟨1, 0⟩, ⟨1, 1⟩] (false, 1) 0 = .ok (!false, 0) := by
    rw [loopBodyDouble_ok ⟨0, 0⟩ [⟨1, 0⟩, ⟨1, 1⟩] false 0 1 ⟨1, 0⟩ ⟨1, 1⟩ (by rfl) (by rfl)]
    have hc : edgeCrossedDouble ⟨0, 0⟩ ⟨1, 0⟩ ⟨1, 1⟩ = true := by decide!
    rw [hc]
    rfl
  have hstrict := (h.mp hrun).1.1
  norm_num at hstrict

/-- C10: `isPointInPolygon` is total.  On every point and every vertex list
the checked run ends with a Boolean, so no vector access is out of range and
no divisor is zero; the crossing condition alone never divides by zero; and
on the empty list the result is false. -/
theorem isPointInPolygon_total (point : Point) (polygon : List Point) :
    (∃ b, isPointInPolygonChecked point polygon = .ok b) ∧
    (∀ vi vj : Point, ∃ c, edgeCrossed point vi vj = .ok c) ∧
    isPointInPolygonChecked point [] = .ok false :=
  ⟨checked_ok point polygon, fun vi vj => ⟨_, edgeCrossed_eq point vi vj⟩, checked_nil point⟩

/-- C4, as the code has it: for the triangle `[(0,0),(0,10),(10,0)]` and
every point `p` off its boundary for which none of the `double` operations of
the crossing test rounds, in particular every `p` whose `y` is an integer
(any `x`), `isPointInPolygon` in `double` is true exactly when `p` is strictly
inside (`x > 0`, `y > 0`, `x + y < 10`); it is true for `(1,1)` and false for
`(9,9)`; and an intersection query with this triangle against an index whose
range search of the bounding rectangle `[0,0]–[10,10]` returns the stored
points `(1,1)` and `(9,9)`, in either order, answers with
`[{"lat": 1, "lng": 1}]` only. -/
theorem triangle_scenario_double {σ : Type} (p : Point) (hp : ¬ onBoundaryT p)
    (parse : String → Option Json) (ops : IndexOps σ) (rtree : σ) (body : String)
    (hparse : parse body = some triangleRequest)
    (hsearch : (ops.search rtree ⟨⟨0, 0⟩, ⟨10, 10⟩⟩).Perm [⟨1, 1⟩, ⟨9, 9⟩]) :
    ((∀ vi ∈ triangleT, ∀ vj ∈ triangleT, exactOps p vi vj) →
      (isPointInPolygonDouble p triangleT = true ↔ (0 < p.x ∧ 0 < p.y ∧ p.x + p.y < 10))) ∧
    (∀ k : ℤ, p.y = k →
      (isPointInPolygonDouble p triangleT = true ↔ (0 < p.x ∧ 0 < p.y ∧ p.x + p.y < 10))) ∧
    isPointInPolygonDouble ⟨1, 1⟩ triangleT = true ∧
    isPointInPolygonDouble ⟨9, 9⟩ triangleT = false ∧
    intersectionHandlerDouble parse ops rtree body
      = .ok ⟨⟨200, .dump (.arr [.obj [("lat", .num 1), ("lng", .num 1)]])⟩, rtree,
          [.search ⟨⟨0, 0⟩, ⟨10, 10⟩⟩]⟩ := by
  have h11 : isPointInPolygonDouble ⟨1, 1⟩ triangleT = true := by
    rw [triangle_double_eq_exact ⟨1, 1⟩ 1 (by norm_num), inside_triangleT_iff]; norm_num
  have h99 : isPointInPolygonDouble ⟨9, 9⟩ triangleT = false := by
    rw [triangle_double_eq_exact ⟨9, 9⟩ 9 (by norm_num), ← Bool.not_eq_true,
      inside_triangleT_iff]
    norm_num
  have hiff : isPointInPolygon p triangleT = true ↔ (0 < p.x ∧ 0 < p.y ∧ p.x + p.y < 10) := by
    rw [inside_triangleT_iff]
    constructor
    · rintro ⟨hx, hy', hs⟩
      refine ⟨lt_of_le_of_ne hx ?_, lt_of_le_of_ne hy' ?_, hs⟩
      · intro h0
        apply hp
        left
        refine ⟨?_, ?_, ?_, ?_, ?_⟩ <;>
          first
          | (simp [onLine, ← h0, hy']; done)
          | (simp [onLine, ← h0, hy']; linarith)
      · intro h0
        apply hp
        right; right
        refine ⟨?_, ?_, ?_, ?_, ?_⟩ <;>
          first
          | (simp [onLine, ← h0, hx]; done)
          | (simp [onLine, ← h0, hx]; linarith)
    · rintro ⟨hx, hy', hs⟩
      exact ⟨hx.le, hy'.le, hs⟩
  refine ⟨?_, ?_, h11, h99, ?_⟩
  · intro hex
    rw [double_eq_exact p triangleT (fun vi hvi vj hvj _ => hex vi hvi vj hvj)]
    exact hiff
  · intro k hy
    rw [triangle_double_eq_exact p k hy]
    exact hiff
  · have hrect : queryRect triangleT = ⟨⟨0, 0⟩, ⟨10, 10⟩⟩ := by
      norm_num [queryRect, Rectangle.ofCorners, boundingBox, bboxStep, triangleT, DBL_MAX,
        DBL_LOWEST]
    have hfilter : (ops.search rtree ⟨⟨0, 0⟩, ⟨10, 10⟩⟩).filter
        (fun q => isPointInPolygonDouble q triangleT) = [⟨1, 1⟩] := by
      have hperm := hsearch.filter (fun q => isPointInPolygonDouble q triangleT)
      rw [List.filter_cons, h11, List.filter_cons, h99] at hperm
      simpa using hperm
    rw [intersectionHandlerDouble_ok parse ops rtree body triangleRequest triangleT hparse
      (by rfl), hrect, hfilter]
    rfl

/-- C4 as the code has it, at the point `(2,3)` and the index that stores
`(1,1)` and `(9,9)`. -/
theorem triangle_scenario_double_witness :
    (isPointInPolygonDouble ⟨2, 3⟩ triangleT = true ↔
      (0 < (Point.mk 2 3).x ∧ 0 < (Point.mk 2 3).y ∧ (Point.mk 2 3).x + (Point.mk 2 3).y < 10)) ∧
    isPointInPolygonDouble ⟨1, 1⟩ triangleT = true ∧
    isPointInPolygonDouble ⟨9, 9⟩ triangleT = false ∧
    intersectionHandlerDouble (fun _ => some triangleRequest) RTree.ops
        ((RTree.empty.insert ⟨1, 1⟩).insert ⟨9, 9⟩) ""
      = .ok ⟨⟨200, .dump (.arr [.obj [("lat", .num 1), ("lng", .num 1)]])⟩,
          (RTree.empty.insert ⟨1, 1⟩).insert ⟨9, 9⟩, [.search ⟨⟨0, 0⟩, ⟨10, 10⟩⟩]⟩ :=
  have hsearch : (RTree.ops.search ((RTree.empty.insert ⟨1, 1⟩).insert ⟨9, 9⟩)
      ⟨⟨0, 0⟩, ⟨10, 10⟩⟩).Perm [⟨1, 1⟩, ⟨9, 9⟩] := by
    have h : RTree.ops.search ((RTree.empty.insert ⟨1, 1⟩).insert ⟨9, 9⟩) ⟨⟨0, 0⟩, ⟨10, 10⟩⟩
        = [⟨1, 1⟩, ⟨9, 9⟩] := by
      norm_num [RTree.ops, RTree.search, RTree.insert, RTree.empty, Rectangle.contains,
        List.filter_cons]
    rw [h]
  have hall := triangle_scenario_double ⟨2, 3⟩ (by norm_num [onBoundaryT, onSegment, onLine])
    (fun _ => some triangleRequest) RTree.ops ((RTree.empty.insert ⟨1, 1⟩).insert ⟨9, 9⟩) ""
    rfl hsearch
  ⟨hall.1 (by decide!), hall.2.2⟩

/-- C4 fails as stated on doubles.  The point `(6.1, 3.9)` is off the
boundary of the triangle and strictly inside it, and `isPointInPolygon`
rejects it; the point `(2.22, 7.78)` is off the boundary and outside (its
coordinates sum to more than 10), and `isPointInPolygon` accepts it.  All
four coordinates are doubles. -/
theorem triangle_rounding_misclassifies :
    (roundDouble d6_1 = .finite d6_1 ∧ roundDouble d3_9 = .finite d3_9 ∧
      ¬ onBoundaryT ⟨d6_1, d3_9⟩ ∧ (0 < d6_1 ∧ 0 < d3_9 ∧ d6_1 + d3_9 < 10) ∧
      isPointInPolygonDouble ⟨d6_1, d3_9⟩ triangleT = false) ∧
    (roundDouble d2_22 = .finite d2_22 ∧ roundDouble d7_78 = .finite d7_78 ∧
      ¬ onBoundaryT ⟨d2_22, d7_78⟩ ∧ 10 < d2_22 + d7_78 ∧
      isPointInPolygonDouble ⟨d2_22, d7_78⟩ triangleT = true) := by
  decide!

/-! ## The properties of the intersection handler -/

/-- C3: for a request whose `points` decode to a non-empty vertex list `V`
(coordinates in the range of `double`), the `/api/intersection` handler makes
one index call, a range search with the rectangle whose corners `lo`, `hi`
are the least and the greatest `x` and `y` over `V`, and answers 200 with
exactly the points of that search result for which `isPointInPolygon` is
true, each point `p` mapped to `{"lat": p.x, "lng": p.y}`, in the order of
the search result.  This holds with the predicate in `double`, and equally
with the predicate in exact arithmetic. -/
theorem intersectionHandler_response {σ : Type} (parse : String → Option Json)
    (ops : IndexOps σ) (rtree : σ) (body : String) (x : Json) (V : List Point)
    (hparse : parse body = some x) (hV : polygonPoints x = .ok V) (hne : V ≠ [])
    (hrange : ∀ v ∈ V, inDoubleRange v.x ∧ inDoubleRange v.y) :
    ∃ lo hi : Point,
      (∀ v ∈ V, lo.x ≤ v.x ∧ v.x ≤ hi.x ∧ lo.y ≤ v.y ∧ v.y ≤ hi.y) ∧
      (∃ v ∈ V, v.x = lo.x) ∧ (∃ v ∈ V, v.y = lo.y) ∧
      (∃ v ∈ V, v.x = hi.x) ∧ (∃ v ∈ V, v.y = hi.y) ∧
      intersectionHandlerDouble parse ops rtree body
        = .ok ⟨⟨200, .dump (.arr (((ops.search rtree ⟨lo, hi⟩).filter
              (fun p => isPointInPolygonDouble p V)).map
                (fun p => Json.obj [("lat", .num p.x), ("lng", .num p.y)])))⟩,
            rtree, [.search ⟨lo, hi⟩]⟩ ∧
      intersectionHandler parse ops rtree body
        = .ok ⟨⟨200, .dump (.arr (((ops.search rtree ⟨lo, hi⟩).filter
              (fun p => isPointInPolygon p V)).map
                (fun p => Json.obj [("lat", .num p.x), ("lng", .num p.y)])))⟩,
            rtree, [.search ⟨lo, hi⟩]⟩ := by
  obtain ⟨a1, a2, a3, a4⟩ := boundingBox_attained V hne hrange
  refine ⟨⟨(boundingBox V).min_lat, (boundingBox V).min_lng⟩,
    ⟨(boundingBox V).max_lat, (boundingBox V).max_lng⟩, ?_, a1, a2, a3, a4, ?_, ?_⟩
  · intro v hv
    obtain ⟨h1, h2, h3, h4⟩ := boundingBox_bounds V v hv
    exact ⟨h1, h3, h2, h4⟩
  · rw [intersectionHandlerDouble_ok parse ops rtree body x V hparse hV, queryRect_eq V hne]
  · rw [intersectionHandler_ok parse ops rtree body x V hparse hV, queryRect_eq V hne]
    rfl

/-- C3, at the triangle request against the index storing `(1,1)` and `(9,9)`. -/
theorem intersectionHandler_response_witness :
    ∃ lo hi : Point,
      (∀ v ∈ triangleT, lo.x ≤ v.x ∧ v.x ≤ hi.x ∧ lo.y ≤ v.y ∧ v.y ≤ hi.y) ∧
      (∃ v ∈ triangleT, v.x = lo.x) ∧ (∃ v ∈ triangleT, v.y = lo.y) ∧
      (∃ v ∈ triangleT, v.x = hi.x) ∧ (∃ v ∈ triangleT, v.y = hi.y) ∧
      intersectionHandlerDouble (fun _ => some triangleRequest) RTree.ops
          ((RTree.empty.insert ⟨1, 1⟩).insert ⟨9, 9⟩) ""
        = .ok ⟨⟨200, .dump (.arr (((RTree.ops.search
              ((RTree.empty.insert ⟨1, 1⟩).insert ⟨9, 9⟩) ⟨lo, hi⟩).filter
              (fun p => isPointInPolygonDouble p triangleT)).map
                (fun p => Json.obj [("lat", .num p.x), ("lng", .num p.y)])))⟩,
            (RTree.empty.insert ⟨1, 1⟩).insert ⟨9, 9⟩, [.search ⟨lo, hi⟩]⟩ ∧
      intersectionHandler (fun _ => some triangleRequest) RTree.ops
          ((RTree.empty.insert ⟨1, 1⟩).insert ⟨9, 9⟩) ""
        = .ok ⟨⟨200, .dump (.arr (((RTree.ops.search
              ((RTree.empty.insert ⟨1, 1⟩).insert ⟨9, 9⟩) ⟨lo, hi⟩).filter
              (fun p => isPointInPolygon p triangleT)).map
                (fun p => Json.obj [("lat", .num p.x), ("lng", .num p.y)])))⟩,
            (RTree.empty.insert ⟨1, 1⟩).insert ⟨9, 9⟩, [.search ⟨lo, hi⟩]⟩ :=
  intersectionHandler_response (fun _ => some triangleRequest) RTree.ops
    ((RTree.empty.insert ⟨1, 1⟩).insert ⟨9, 9⟩) "" triangleRequest triangleT rfl rfl
    (by simp [triangleT])
    (by norm_num [triangleT, inDoubleRange, DBL_MAX, DBL_LOWEST])

/-- C9, as the code has it.  For a vertex list `V` of a length that fits
`size_t` and any point `p` that `isPointInPolygon` (in `double`) accepts:
the height of `p` lies between the least and the greatest `y` over `V`; and
when none of the `double` operations of the crossing test rounds for `p`
against the vertices of `V`, `p.x` lies between the least and the greatest
`x` over `V`, so `p` is in the rectangle the handler computes.  The handler
answers with the points of the range search that the predicate accepts;
whenever the search returns exactly the stored points contained in the
rectangle, these are the stored points in the rectangle that the predicate
accepts, and when no operation rounds for the stored points they are all
the stored points that the predicate accepts.  In exact rational arithmetic
every accepted point is in the rectangle. -/
theorem rectangle_prune_double {σ : Type} (V : List Point) (hsize : V.length < SIZE_MOD) :
    (∀ p : Point, isPointInPolygonDouble p V = true →
      ((∃ c ∈ V, c.y ≤ p.y) ∧ (∃ d ∈ V, p.y ≤ d.y)) ∧
      ((∀ vi ∈ V, ∀ vj ∈ V, exactOps p vi vj) →
        (queryRect V).contains p = true ∧
        (∃ a ∈ V, a.x ≤ p.x) ∧ (∃ b ∈ V, p.x ≤ b.x))) ∧
    (∀ (parse : String → Option Json) (ops : IndexOps σ) (rtree : σ) (stored : List Point)
        (body : String) (x : Json),
      parse body = some x → polygonPoints x = .ok V →
      intersectionHandlerDouble parse ops rtree body
        = .ok ⟨⟨200, .dump (.arr (((ops.search rtree (queryRect V)).filter
              (fun p => isPointInPolygonDouble p V)).map
                (fun p => Json.obj [("lat", .num p.x), ("lng", .num p.y)])))⟩,
            rtree, [.search (queryRect V)]⟩ ∧
      (ops.search rtree (queryRect V) = stored.filter (queryRect V).contains →
        (ops.search rtree (queryRect V)).filter (fun p => isPointInPolygonDouble p V)
          = stored.filter (fun p => (queryRect V).contains p && isPointInPolygonDouble p V)) ∧
      ((∀ q ∈ stored, ∀ vi ∈ V, ∀ vj ∈ V, exactOps q vi vj) →
        (ops.search rtree (queryRect V) = stored.filter (queryRect V).contains →
          (ops.search rtree (queryRect V)).filter (fun p => isPointInPolygonDouble p V)
            = stored.filter (fun p => isPointInPolygonDouble p V)) ∧
        ((ops.search rtree (queryRect V)).Perm (stored.filter (queryRect V).contains) →
          ((ops.search rtree (queryRect V)).filter (fun p => isPointInPolygonDouble p V)).Perm
            (stored.filter (fun p => isPointInPolygonDouble p V))))) ∧
    (∀ p : Point, isPointInPolygon p V = true → (queryRect V).contains p = true) := by
  have hcontains : ∀ q : Point, (∀ vi ∈ V, ∀ vj ∈ V, exactOps q vi vj) →
      isPointInPolygonDouble q V = true → (queryRect V).contains q = true := by
    intro q hex hq
    rw [double_eq_exact q V (fun vi hvi vj hvj _ => hex vi hvi vj hvj)] at hq
    exact inside_imp_contains q V hsize hq
  refine ⟨?_, ?_, fun p hp => inside_imp_contains p V hsize hp⟩
  · intro p hp
    obtain ⟨hc, ⟨d, hd, hd'⟩⟩ := doubleInside_heights p V hp
    refine ⟨⟨hc, ⟨d, hd, hd'.le⟩⟩, ?_⟩
    intro hex
    have hp' := hp
    rw [double_eq_exact p V (fun vi hvi vj hvj _ => hex vi hvi vj hvj)] at hp'
    obtain ⟨ha, ⟨b, hb, hb'⟩, _, _⟩ := inside_bounds p V hp'
    exact ⟨hcontains p hex hp, ha hsize, ⟨b, hb, hb'.le⟩⟩
  · intro parse ops rtree stored body x hparse hV
    refine ⟨intersectionHandlerDouble_ok parse ops rtree body x V hparse hV, ?_, ?_⟩
    · intro hsearch
      rw [hsearch, List.filter_filter]
      apply List.filter_congr
      intro q _
      rw [Bool.and_comm]
    · intro hex
      have h2 : (stored.filter (queryRect V).contains).filter
            (fun p => isPointInPolygonDouble p V)
          = stored.filter (fun p => isPointInPolygonDouble p V) := by
        rw [List.filter_filter]
        apply List.filter_congr
        intro q hq
        cases hqd : isPointInPolygonDouble q V
        · rfl
        · simp [hcontains q (hex q hq) hqd]
      constructor
      · intro hsearch
        rw [hsearch, h2]
      · intro hsearch
        have h1 := hsearch.filter (fun p => isPointInPolygonDouble p V)
        rw [h2] at h1
        exact h1

/-- C9 as the code has it, at the triangle `[(0,0),(0,10),(10,0)]`, the point
`(1,1)` and the index storing `(1,1)` and `(9,9)`. -/
theorem rectangle_prune_double_witness :
    (((∃ c ∈ triangleT, c.y ≤ (Point.mk 1 1).y) ∧ (∃ d ∈ triangleT, (Point.mk 1 1).y ≤ d.y)) ∧
      (queryRect triangleT).contains ⟨1, 1⟩ = true ∧
      (∃ a ∈ triangleT, a.x ≤ (Point.mk 1 1).x) ∧ (∃ b ∈ triangleT, (Point.mk 1 1).x ≤ b.x)) ∧
    (RTree.ops.search ((RTree.empty.insert ⟨1, 1⟩).insert ⟨9, 9⟩) (queryRect triangleT)).filter
        (fun p => isPointInPolygonDouble p triangleT)
      = [Point.mk 1 1, Point.mk 9 9].filter (fun p => isPointInPolygonDouble p triangleT) :=
  ⟨⟨((@rectangle_prune_double RTree triangleT (by decide)).1 ⟨1, 1⟩ (by decide!)).1,
      ((@rectangle_prune_double RTree triangleT (by decide)).1 ⟨1, 1⟩ (by decide!)).2
        (by decide!)⟩,
    (((@rectangle_prune_double RTree triangleT (by decide)).2.1 (fun _ => some triangleRequest)
      RTree.ops ((RTree.empty.insert ⟨1, 1⟩).insert ⟨9, 9⟩) [⟨1, 1⟩, ⟨9, 9⟩] "" triangleRequest
      rfl rfl).2.2 (by decide!)).1 rfl⟩

/-- C9 fails as stated on doubles.  For the polygon `[(0.1,0),(-1,1),(-1,0)]`
the point `p = (0.10000000000000002, 0)`, whose coordinates are doubles, is
accepted by `isPointInPolygon` although `p.x` is greater than every vertex
`x`, so `p` is outside the handler's rectangle; with `p` the one stored
point, the query answers with the empty array while `p` passes the
predicate. -/
theorem rectangle_prune_drops_accepted_point :
    (roundDouble d0_1 = .finite d0_1 ∧ roundDouble d0_1_next = .finite d0_1_next) ∧
    isPointInPolygonDouble ⟨d0_1_next, 0⟩ sliverV = true ∧
    (∀ v ∈ sliverV, v.x < d0_1_next) ∧
    (queryRect sliverV).contains ⟨d0_1_next, 0⟩ = false ∧
    intersectionHandlerDouble (fun _ => some sliverRequest) RTree.ops
        (RTree.empty.insert ⟨d0_1_next, 0⟩) ""
      = .ok ⟨⟨200, .dump (.arr [])⟩, RTree.empty.insert ⟨d0_1_next, 0⟩,
          [.search (queryRect sliverV)]⟩ ∧
    (RTree.empty.insert ⟨d0_1_next, 0⟩).stored.filter
        (fun q => isPointInPolygonDouble q sliverV) = [⟨d0_1_next, 0⟩] := by
  have hacc : isPointInPolygonDouble ⟨d0_1_next, 0⟩ sliverV = true := by decide!
  have hout : (queryRect sliverV).contains ⟨d0_1_next, 0⟩ = false := by
    norm_num [queryRect, Rectangle.ofCorners, Rectangle.contains, boundingBox, bboxStep, sliverV,
      DBL_MAX, DBL_LOWEST, d0_1, d0_1_next]
  refine ⟨by decide!, hacc, by decide!, hout, ?_, ?_⟩
  · rw [intersectionHandlerDouble_ok (fun _ => some sliverRequest) RTree.ops
      (RTree.empty.insert ⟨d0_1_next, 0⟩) "" sliverRequest sliverV rfl (by rfl)]
    have hsearch : RTree.ops.search (RTree.empty.insert ⟨d0_1_next, 0⟩) (queryRect sliverV)
        = [] := by
      simp [RTree.ops, RTree.search, RTree.insert, RTree.empty, hout]
    rw [hsearch]
    rfl
  · simp [RTree.insert, RTree.empty, hacc]

/-! ## The properties of the point and nearest-neighbour handlers -/

/-- C6: for every `/api/point` request body, if the body does not parse, or
its `lat` or `lng` field is missing or not a number, the response has status
400, no call is made into the index and the index is unchanged; otherwise
`insert` is called exactly once, with `Point(lat, lng)`, and the response is
200 with an empty body. -/
theorem pointHandler_spec {σ : Type} (parse : String → Option Json) (ops : IndexOps σ)
    (rtree : σ) (body : String) :
    ((parse body = none ∨
        ∃ x, parse body = some x ∧ (x.numberField "lat" = none ∨ x.numberField "lng" = none)) →
      (pointHandler parse ops rtree body).response.status = 400 ∧
      (pointHandler parse ops rtree body).calls = [] ∧
      (pointHandler parse ops rtree body).rtree = rtree) ∧
    (∀ (x : Json) (lat lng : ℚ), parse body = some x →
      x.numberField "lat" = some lat → x.numberField "lng" = some lng →
      pointHandler parse ops rtree body
        = ⟨⟨200, .text ""⟩, ops.insert rtree ⟨lat, lng⟩, [.insert ⟨lat, lng⟩]⟩) := by
  constructor
  · rintro (hnone | ⟨x, hx, hbad⟩)
    · simp [pointHandler, hnone]
    · have herr := latLngFields_error x hbad
      cases hf : latLngFields x with
      | ok r => exact absurd hf (herr r)
      | error e => simp [pointHandler, hx, hf]
  · intro x lat lng hx hlat hlng
    simp [pointHandler, hx, latLngFields_ok x lat lng hlat hlng, latLngToPoint]

/-- C6, at a body that does not parse and at the body `{"lat": 1, "lng": 2}`
against the empty index. -/
theorem pointHandler_spec_witness :
    ((pointHandler (fun _ => none) RTree.ops RTree.empty "lat=1").response.status = 400 ∧
      (pointHandler (fun _ => none) RTree.ops RTree.empty "lat=1").calls = [] ∧
      (pointHandler (fun _ => none) RTree.ops RTree.empty "lat=1").rtree = RTree.empty) ∧
    pointHandler (fun _ => some (.obj [("lat", .num 1), ("lng", .num 2)])) RTree.ops RTree.empty ""
      = ⟨⟨200, .text ""⟩, RTree.ops.insert RTree.empty ⟨1, 2⟩, [.insert ⟨1, 2⟩]⟩ :=
  ⟨(pointHandler_spec (fun _ => none) RTree.ops RTree.empty "lat=1").1 (Or.inl rfl),
    (pointHandler_spec (fun _ => some (.obj [("lat", .num 1), ("lng", .num 2)])) RTree.ops
      RTree.empty "").2 (.obj [("lat", .num 1), ("lng", .num 2)]) 1 2 rfl rfl rfl⟩

/-- C5: a well-formed `/api/nearest_neighbor` request against the index with
zero insertions reaches `nearest_neighbor`, whose empty-index error the
handler turns into the failure response 400 "Invalid query point"; the
status is not 200 and no point is sent.  The handler has no emptiness test
of its own: over any index, it answers 400 exactly when `nearest_neighbor`
raises, and 200 with the returned point when it returns one. -/
theorem nearestNeighborHandler_empty_index {σ : Type} (parse : String → Option Json)
    (body : String) (x : Json) (lat lng : ℚ) (hparse : parse body = some x)
    (hlat : x.numberField "lat" = some lat) (hlng : x.numberField "lng" = some lng) :
    nearestNeighborHandler parse RTree.ops RTree.empty body
      = ⟨⟨400, .text "Invalid query point"⟩, RTree.empty, [.nearest_neighbor ⟨lat, lng⟩]⟩ ∧
    (nearestNeighborHandler parse RTree.ops RTree.empty body).response.status ≠ 200 ∧
    (∀ (ops : IndexOps σ) (rtree : σ),
      (∀ e, ops.nearest_neighbor rtree ⟨lat, lng⟩ = .error e →
        nearestNeighborHandler parse ops rtree body
          = ⟨⟨400, .text "Invalid query point"⟩, rtree, [.nearest_neighbor ⟨lat, lng⟩]⟩) ∧
      (∀ p, ops.nearest_neighbor rtree ⟨lat, lng⟩ = .ok p →
        nearestNeighborHandler parse ops rtree body
          = ⟨⟨200, .dump (pointToLatLng p)⟩, rtree, [.nearest_neighbor ⟨lat, lng⟩]⟩)) := by
  have h : nearestNeighborHandler parse RTree.ops RTree.empty body
      = ⟨⟨400, .text "Invalid query point"⟩, RTree.empty, [.nearest_neighbor ⟨lat, lng⟩]⟩ := by
    simp [nearestNeighborHandler, hparse, latLngFields_ok x lat lng hlat hlng, RTree.ops,
      RTree.nearest_neighbor, RTree.empty, latLngToPoint]
  refine ⟨h, by rw [h]; simp, ?_⟩
  intro ops rtree
  constructor
  · intro e he
    simp [nearestNeighborHandler, hparse, latLngFields_ok x lat lng hlat hlng, latLngToPoint, he]
  · intro p hp
    simp [nearestNeighborHandler, hparse, latLngFields_ok x lat lng hlat hlng, latLngToPoint, hp]

/-- C5, at the body `{"lat": 5, "lng": 6}`. -/
theorem nearestNeighborHandler_empty_index_witness :
    nearestNeighborHandler (fun _ => some (.obj [("lat", .num 5), ("lng", .num 6)])) RTree.ops
        RTree.empty ""
      = ⟨⟨400, .text "Invalid query point"⟩, RTree.empty, [.nearest_neighbor ⟨5, 6⟩]⟩ ∧
    (nearestNeighborHandler (fun _ => some (.obj [("lat", .num 5), ("lng", .num 6)])) RTree.ops
        RTree.empty "").response.status ≠ 200 :=
  ⟨(@nearestNeighborHandler_empty_index RTree
      (fun _ => some (.obj [("lat", .num 5), ("lng", .num 6)])) ""
      (.obj [("lat", .num 5), ("lng", .num 6)]) 5 6 rfl rfl rfl).1,
    (@nearestNeighborHandler_empty_index RTree
      (fun _ => some (.obj [("lat", .num 5), ("lng", .num 6)])) ""
      (.obj [("lat", .num 5), ("lng", .num 6)]) 5 6 rfl rfl rfl).2.1⟩

/-! ## Rejected and accepted `/api/intersection` bodies -/

/-- C7 as the code has it: an `/api/intersection` body that does not parse is
answered 400 "Invalid JSON", and a body whose `points` field is wrong-typed
(`wrongTypedPoints`) is answered 400 "Invalid polygon coordinates"; in both
cases no call is made into the index and the index is unchanged.  No minimum
number of vertices is enforced: when `points` is an array of `k ≥ 0`
vertices, the handler decodes `k` points, makes its one range search and
answers 200. -/
theorem intersectionHandler_rejects {σ : Type} (parse : String → Option Json)
    (ops : IndexOps σ) (rtree : σ) (body : String) :
    (parse body = none →
      intersectionHandler parse ops rtree body = .ok ⟨⟨400, .text "Invalid JSON"⟩, rtree, []⟩) ∧
    (∀ x, parse body = some x → wrongTypedPoints x = true →
      intersectionHandler parse ops rtree body
        = .ok ⟨⟨400, .text "Invalid polygon coordinates"⟩, rtree, []⟩) ∧
    (∀ members items, parse body = some (.obj members) →
      members.lookup "points" = some (.arr items) → (∀ e ∈ items, e.isVertex = true) →
      ∃ V, polygonPoints (.obj members) = .ok V ∧ V.length = items.length ∧
        intersectionHandler parse ops rtree body
          = .ok ⟨⟨200, .dump (.arr (((ops.search rtree (queryRect V)).filter
                (fun p => isPointInPolygon p V)).map pointToLatLng))⟩,
              rtree, [.search (queryRect V)]⟩) := by
  refine ⟨?_, ?_, ?_⟩
  · intro hnone
    simp [intersectionHandler, hnone]
  · intro x hx hbad
    obtain ⟨ex, hex⟩ := polygonPoints_wrongTyped x hbad
    simp [intersectionHandler, hx, hex]
  · intro members items hx hl hall
    obtain ⟨V, hV, hlen⟩ := parseVertices_all items hall
    have hpp : polygonPoints (.obj members) = .ok V := by
      simp [polygonPoints, Json.atKey, hl, Json.elements, hV]
    exact ⟨V, hpp, hlen, intersectionHandler_ok parse ops rtree body _ V hx hpp⟩

/-- C7 as the code has it, at a body that does not parse, at the body
`{"points": [[0,0],"a"]}`, and at the body `{"points": [[0,0],[1,1]]}` of two
vertices. -/
theorem intersectionHandler_rejects_witness :
    intersectionHandler (fun _ => none) RTree.ops RTree.empty "lat=1"
      = .ok ⟨⟨400, .text "Invalid JSON"⟩, RTree.empty, []⟩ ∧
    intersectionHandler (fun _ => some (.obj [("points", .arr [.arr [.num 0, .num 0], .str "a"])]))
        RTree.ops RTree.empty ""
      = .ok ⟨⟨400, .text "Invalid polygon coordinates"⟩, RTree.empty, []⟩ ∧
    (∃ V, polygonPoints (.obj [("points", .arr [.arr [.num 0, .num 0], .arr [.num 1, .num 1]])])
          = .ok V ∧
      V.length = [Json.arr [.num 0, .num 0], Json.arr [.num 1, .num 1]].length ∧
      intersectionHandler
          (fun _ => some (.obj [("points", .arr [.arr [.num 0, .num 0], .arr [.num 1, .num 1]])]))
          RTree.ops RTree.empty ""
        = .ok ⟨⟨200, .dump (.arr (((RTree.ops.search RTree.empty (queryRect V)).filter
              (fun p => isPointInPolygon p V)).map pointToLatLng))⟩,
            RTree.empty, [.search (queryRect V)]⟩) :=
  ⟨(intersectionHandler_rejects (fun _ => none) RTree.ops RTree.empty "lat=1").1 rfl,
    (intersectionHandler_rejects
      (fun _ => some (.obj [("points", .arr [.arr [.num 0, .num 0], .str "a"])])) RTree.ops
      RTree.empty "").2.1 _ rfl rfl,
    (intersectionHandler_rejects
      (fun _ => some (.obj [("points", .arr [.arr [.num 0, .num 0], .arr [.num 1, .num 1]])]))
      RTree.ops RTree.empty "").2.2 _ _ rfl rfl (by simp [Json.isVertex])⟩

/-- C7 fails as stated: the bodies `{"points": []}` (no vertex),
`{"points": [[0,0],[1,1]]}` (two vertices) and `{}` (no `points` field) each
reach the range search and are answered 200 with an empty array. -/
theorem intersectionHandler_accepts_short_polygon :
    intersectionHandler (fun _ => some (.obj [("points", .arr [])])) RTree.ops RTree.empty ""
      = .ok ⟨⟨200, .dump (.arr [])⟩, RTree.empty, [.search (queryRect [])]⟩ ∧
    intersectionHandler
        (fun _ => some (.obj [("points", .arr [.arr [.num 0, .num 0], .arr [.num 1, .num 1]])]))
        RTree.ops RTree.empty ""
      = .ok ⟨⟨200, .dump (.arr [])⟩, RTree.empty, [.search (queryRect [⟨0, 0⟩, ⟨1, 1⟩])]⟩ ∧
    intersectionHandler (fun _ => some (.obj [])) RTree.ops RTree.empty ""
      = .ok ⟨⟨200, .dump (.arr [])⟩, RTree.empty, [.search (queryRect [])]⟩ := by
  refine ⟨?_, ?_, ?_⟩
  · rw [intersectionHandler_ok _ _ _ _ (.obj [("points", .arr [])]) [] rfl rfl]
    rfl
  · rw [intersectionHandler_ok _ _ _ _
      (.obj [("points", .arr [.arr [.num 0, .num 0], .arr [.num 1, .num 1]])])
      [⟨0, 0⟩, ⟨1, 1⟩] rfl rfl]
    rfl
  · rw [intersectionHandler_ok _ _ _ _ (.obj []) [] rfl rfl]
    rfl

end Geo
